import Mathlib

/-!
Verification of the UserPromptSubmit router hook
(`packages/router/hooks/router.py`).

The router is a single-shot pipeline: read a JSON request from stdin, load
and merge rule documents, match the prompt against trigger keywords and
regex patterns, classify the outcome into one of five scenarios, render a
hint string, and emit a JSON response.  We shallowly embed the Python
functions over an explicit JSON value type: duck-typed operations that can
raise in Python (attribute access on a non-dict, `len` of a number, string
concatenation with a list, hashing an unhashable value, ...) are modelled
as `Except PyErr` computations; the top-level `except Exception` handler of
`main` becomes a `match` converting any error into the neutral response.

Python's `re` module is external to the repository.  The one fixed-shape
regex the router builds itself (`r'\b' + re.escape(t) + r'\b'`, a
word-boundary-anchored literal search) is modelled directly as
`wordBoundarySearch`; arbitrary user-supplied skill `patterns` are matched
through an oracle parameter `RegexOracle` (`none` models `re.error`), so
every theorem quantifies over all behaviours of the external engine.

Numbers are modelled as integers (the rule documents never use float
arithmetic), character classes (`\w`, `.lower()`, whitespace) follow the
ASCII behaviour which coincides with Python on the ASCII inputs used
throughout, and Python's numeric/bool cross-type equality (`True == 1`) is
not modelled.
-/

/-- A JSON value, the universe of data flowing through the router:
stdin request, rule documents, and the emitted response. -/
inductive Json where
  | null : Json
  | bool (b : Bool) : Json
  | num (n : Int) : Json
  | str (s : String) : Json
  | arr (elems : List Json) : Json
  | obj (fields : List (String × Json)) : Json

mutual

def Json.decEq : (a b : Json) → Decidable (a = b)
  | .null, .null => .isTrue rfl
  | .bool a, .bool b =>
    if h : a = b then .isTrue (by rw [h]) else .isFalse (by simp [h])
  | .num a, .num b =>
    if h : a = b then .isTrue (by rw [h]) else .isFalse (by simp [h])
  | .str a, .str b =>
    if h : a = b then .isTrue (by rw [h]) else .isFalse (by simp [h])
  | .arr a, .arr b =>
    match Json.decEqList a b with
    | .isTrue h => .isTrue (by rw [h])
    | .isFalse h => .isFalse (by simp [h])
  | .obj a, .obj b =>
    match Json.decEqObj a b with
    | .isTrue h => .isTrue (by rw [h])
    | .isFalse h => .isFalse (by simp [h])
  | .null, .bool _ => .isFalse (by simp)
  | .null, .num _ => .isFalse (by simp)
  | .null, .str _ => .isFalse (by simp)
  | .null, .arr _ => .isFalse (by simp)
  | .null, .obj _ => .isFalse (by simp)
  | .bool _, .null => .isFalse (by simp)
  | .bool _, .num _ => .isFalse (by simp)
  | .bool _, .str _ => .isFalse (by simp)
  | .bool _, .arr _ => .isFalse (by simp)
  | .bool _, .obj _ => .isFalse (by simp)
  | .num _, .null => .isFalse (by simp)
  | .num _, .bool _ => .isFalse (by simp)
  | .num _, .str _ => .isFalse (by simp)
  | .num _, .arr _ => .isFalse (by simp)
  | .num _, .obj _ => .isFalse (by simp)
  | .str _, .null => .isFalse (by simp)
  | .str _, .bool _ => .isFalse (by simp)
  | .str _, .num _ => .isFalse (by simp)
  | .str _, .arr _ => .isFalse (by simp)
  | .str _, .obj _ => .isFalse (by simp)
  | .arr _, .null => .isFalse (by simp)
  | .arr _, .bool _ => .isFalse (by simp)
  | .arr _, .num _ => .isFalse (by simp)
  | .arr _, .str _ => .isFalse (by simp)
  | .arr _, .obj _ => .isFalse (by simp)
  | .obj _, .null => .isFalse (by simp)
  | .obj _, .bool _ => .isFalse (by simp)
  | .obj _, .num _ => .isFalse (by simp)
  | .obj _, .str _ => .isFalse (by simp)
  | .obj _, .arr _ => .isFalse (by simp)

def Json.decEqList : (a b : List Json) → Decidable (a = b)
  | [], [] => .isTrue rfl
  | [], _ :: _ => .isFalse (by simp)
  | _ :: _, [] => .isFalse (by simp)
  | x :: xs, y :: ys =>
    match Json.decEq x y with
    | .isTrue h1 =>
      match Json.decEqList xs ys with
      | .isTrue h2 => .isTrue (by rw [h1, h2])
      | .isFalse h2 => .isFalse (by simp [h2])
    | .isFalse h1 => .isFalse (by simp [h1])

def Json.decEqObj : (a b : List (String × Json)) → Decidable (a = b)
  | [], [] => .isTrue rfl
  | [], _ :: _ => .isFalse (by simp)
  | _ :: _, [] => .isFalse (by simp)
  | (k, x) :: xs, (l, y) :: ys =>
    if hk : k = l then
      match Json.decEq x y with
      | .isTrue h1 =>
        match Json.decEqObj xs ys with
        | .isTrue h2 => .isTrue (by rw [hk, h1, h2])
        | .isFalse h2 => .isFalse (by simp [h2])
      | .isFalse h1 => .isFalse (by simp [h1])
    else .isFalse (by simp [hk])

end

instance : DecidableEq Json := Json.decEq

/-- A raised Python exception (the router only distinguishes "some
exception was raised"; the kind is kept for readability). -/
inductive PyErr where
  | typeError : PyErr
  | attributeError : PyErr
  | keyError : PyErr
  | valueError : PyErr
  deriving DecidableEq

abbrev PyResult (α : Type) := Except PyErr α

instance {ε α : Type} [DecidableEq ε] [DecidableEq α] : DecidableEq (Except ε α) :=
  fun a b =>
    match a, b with
    | .ok x, .ok y => if h : x = y then .isTrue (by rw [h]) else .isFalse (by simp [h])
    | .error e, .error f => if h : e = f then .isTrue (by rw [h]) else .isFalse (by simp [h])
    | .ok _, .error _ => .isFalse (by simp)
    | .error _, .ok _ => .isFalse (by simp)

/-- Substring test on lists: `needle` occurs contiguously in `hay`
(Python `needle in hay` for strings). -/
def hasSubList [BEq α] (needle : List α) : List α → Bool
  | [] => needle.isEmpty
  | c :: rest => needle.isPrefixOf (c :: rest) || hasSubList needle rest

/-- `needle in hay` for strings. -/
def strContainsB (hay needle : String) : Bool :=
  hasSubList needle.data hay.data

/-- `needle in hay` for strings, as a proposition. -/
def strContains (hay needle : String) : Prop :=
  strContainsB hay needle = true

instance (hay needle : String) : Decidable (strContains hay needle) := by
  unfold strContains; infer_instance

/-- `str.lower()` (ASCII case folding), implemented structurally so that
it evaluates inside the kernel. -/
def strLower (s : String) : String := String.mk (s.data.map Char.toLower)

/-- `str.strip()`: whitespace removed from both ends. -/
def strTrim (s : String) : String :=
  String.mk (((s.data.dropWhile Char.isWhitespace).reverse.dropWhile
    Char.isWhitespace).reverse)

namespace Json

/-- Python truthiness of a JSON value (`bool(x)`). -/
def truthy : Json → Bool
  | .null => false
  | .bool b => b
  | .num n => n != 0
  | .str s => s != ""
  | .arr xs => !xs.isEmpty
  | .obj kvs => !kvs.isEmpty

/-- Dictionary lookup on an object's fields. -/
def lookup (kvs : List (String × Json)) (k : String) : Option Json :=
  match kvs with
  | [] => none
  | (k', v) :: rest => if k' = k then some v else lookup rest k

/-- `d.get(k, default)` — raises `AttributeError` unless the value is a
dict. -/
def pyGetD (j : Json) (k : String) (dfl : Json) : PyResult Json :=
  match j with
  | .obj kvs => .ok ((lookup kvs k).getD dfl)
  | _ => .error .attributeError

/-- `d.get(k)` (default `None`). -/
def pyGet1 (j : Json) (k : String) : PyResult Json :=
  pyGetD j k .null

/-- `d.items()` — raises `AttributeError` unless the value is a dict. -/
def pyItems (j : Json) : PyResult (List (String × Json)) :=
  match j with
  | .obj kvs => .ok kvs
  | _ => .error .attributeError

/-- `d[k]` subscription: `KeyError` on a missing key, `TypeError` for
string indices into lists/strings and for unsubscriptable values. -/
def pySub (j : Json) (k : String) : PyResult Json :=
  match j with
  | .obj kvs =>
    match lookup kvs k with
    | some v => .ok v
    | none => .error .keyError
  | _ => .error .typeError

/-- Update an object's fields at `k` (insertion order preserved; a new key
is appended, matching Python dict semantics). -/
def setField (kvs : List (String × Json)) (k : String) (v : Json)
    : List (String × Json) :=
  match kvs with
  | [] => [(k, v)]
  | (k', v') :: rest =>
    if k' = k then (k', v) :: rest else (k', v') :: setField rest k v

/-- `d[k] = v` — raises `TypeError` unless the target is a dict. -/
def pySubSet (j : Json) (k : String) (v : Json) : PyResult Json :=
  match j with
  | .obj kvs => .ok (.obj (setField kvs k v))
  | _ => .error .typeError

/-- `len(x)` — defined for strings, lists and dicts. -/
def pyLen (j : Json) : PyResult Nat :=
  match j with
  | .str s => .ok s.length
  | .arr xs => .ok xs.length
  | .obj kvs => .ok kvs.length
  | _ => .error .typeError

/-- `for x in j`: lists yield elements, strings yield one-character
strings, dicts yield their keys; other values raise `TypeError`. -/
def pyIterList (j : Json) : PyResult (List Json) :=
  match j with
  | .arr xs => .ok xs
  | .str s => .ok (s.data.map (fun c => .str c.toString))
  | .obj kvs => .ok (kvs.map (fun kv => .str kv.1))
  | _ => .error .typeError

/-- `x.lower()` — raises `AttributeError` unless `x` is a string. -/
def pyLowerStr (j : Json) : PyResult String :=
  match j with
  | .str s => .ok (strLower s)
  | _ => .error .attributeError

/-- `x + y` for the value kinds JSON can carry. -/
def pyAdd (a b : Json) : PyResult Json :=
  match a, b with
  | .arr xs, .arr ys => .ok (.arr (xs ++ ys))
  | .str s, .str t => .ok (.str (s ++ t))
  | .num m, .num n => .ok (.num (m + n))
  | _, _ => .error .typeError

/-- `x[:n]` used via `list.extend(x[:n])`: the resulting elements.  Dicts
are not sliceable. -/
def pySliceElems (j : Json) (n : Nat) : PyResult (List Json) :=
  match j with
  | .arr xs => .ok (xs.take n)
  | .str s => .ok ((s.data.take n).map (fun c => .str c.toString))
  | _ => .error .typeError

/-- Hashability: lists and dicts are unhashable in Python. -/
def isHashable : Json → Bool
  | .arr _ => false
  | .obj _ => false
  | _ => true

/-- `k in s` for a Python `set` modelled as a list of distinct values —
raises `TypeError` when `k` is unhashable. -/
def pyInSet (k : Json) (s : List Json) : PyResult Bool :=
  if isHashable k then .ok (s.contains k) else .error .typeError

/-- `s.add(k)` for a Python `set` modelled as a list of distinct values. -/
def setAdd (s : List Json) (k : Json) : PyResult (List Json) :=
  if isHashable k then
    .ok (if s.contains k then s else s ++ [k])
  else .error .typeError

/-- `k in x` as used by `validate_rules`: key test for dicts, membership
for lists, substring test for strings, `TypeError` otherwise. -/
def pyContains (j : Json) (k : String) : PyResult Bool :=
  match j with
  | .obj kvs => .ok (kvs.any (fun kv => kv.1 = k))
  | .arr xs => .ok (xs.contains (.str k))
  | .str s => .ok (hasSubList k.data s.data)
  | _ => .error .typeError

end Json

mutual

/-- Python's `repr` on JSON-shaped values (single-quoted strings;
quote-switching for strings that contain quotes is not modelled). -/
def pyRepr : Json → String
  | .null => "None"
  | .bool true => "True"
  | .bool false => "False"
  | .num n => toString n
  | .str s => (Char.ofNat 39).toString ++ s ++ (Char.ofNat 39).toString
  | .arr xs => "[" ++ pyReprList xs ++ "]"
  | .obj kvs => "\x7b" ++ pyReprObj kvs ++ "\x7d"

def pyReprList : List Json → String
  | [] => ""
  | [x] => pyRepr x
  | x :: y :: rest => pyRepr x ++ ", " ++ pyReprList (y :: rest)

def pyReprObj : List (String × Json) → String
  | [] => ""
  | [(k, v)] =>
    (Char.ofNat 39).toString ++ k ++ (Char.ofNat 39).toString ++ ": " ++ pyRepr v
  | (k, v) :: kv :: rest =>
    (Char.ofNat 39).toString ++ k ++ (Char.ofNat 39).toString ++ ": " ++ pyRepr v ++
      ", " ++ pyReprObj (kv :: rest)

end

/-- Python's `str()` on JSON-shaped values, as evaluated inside f-strings. -/
def pyStrOf : Json → String
  | .str s => s
  | j => pyRepr j

-- === Constants (router.py) ===

def DEFAULT_SHORT_THRESHOLD : Int := 5

def PROJECT_RULES_PATH : String := ".claude/router-rules.json"

/-- Routing scenarios for template selection. -/
inductive Scenario where
  | short_no_match : Scenario
  | agents_only : Scenario
  | agents_and_skills : Scenario
  | skills_only : Scenario
  | long_no_match : Scenario
  deriving DecidableEq

/-- Router configuration from environment (`load_config` is I/O; the
configuration record it produces is taken as an input here). -/
structure RouterConfig where
  rules_path : String
  debug : Bool
  short_threshold : Int
  cwd : String
  deriving DecidableEq

/-- Result of keyword matching against a prompt.  Agent entries and
project-matched agent names are arbitrary JSON values, as in the Python
(duck-typed dicts); matched skill names are the string keys of the
`skills` mapping. -/
structure MatchResult where
  matched_categories : List String
  matched_agents : List Json
  matched_skills : List String
  match_count : Nat
  word_count : Nat
  project_matched_agents : List Json
  project_matched_skills : List String
  has_project_matches : Bool
  deriving DecidableEq

-- === Keyword matching (router.py) ===

/-- `normalize_text`: `text.lower().strip()`. -/
def normalize_text (text : String) : String := strTrim (strLower text)

/-- Count the whitespace-delimited tokens of a character list (the flag
records whether the previous character was inside a word). -/
def countWordsAux : List Char → Bool → Nat
  | [], _ => 0
  | c :: rest, inWord =>
    if Char.isWhitespace c then countWordsAux rest false
    else (if inWord then 0 else 1) + countWordsAux rest true

/-- `count_words`: `len(text.split())` — whitespace-delimited tokens. -/
def count_words (text : String) : Nat := countWordsAux text.data false

/-- A regex word character (`\w`), ASCII fragment. -/
def isWordChar (c : Char) : Bool := c.isAlphanum || c = '_'

/-- Word-character test at an index, out-of-range counting as non-word. -/
def wordAt (hay : List Char) (i : Nat) : Bool :=
  match hay[i]? with
  | some c => isWordChar c
  | none => false

/-- `\b` holds at position `i` (between `hay[i-1]` and `hay[i]`) iff
word-ness changes there. -/
def boundaryAt (hay : List Char) (i : Nat) : Bool :=
  (match i with
   | 0 => false
   | j + 1 => wordAt hay j) != wordAt hay i

/-- `re.search(r'\b' + re.escape(needle) + r'\b', hay)`: some occurrence
of the literal `needle` flanked by word boundaries. -/
def wordBoundarySearchL (needle hay : List Char) : Bool :=
  (List.range (hay.length + 1)).any (fun i =>
    decide (i + needle.length ≤ hay.length) &&
    decide ((hay.drop i).take needle.length = needle) &&
    boundaryAt hay i && boundaryAt hay (i + needle.length))

/-- String version of `wordBoundarySearchL`. -/
def wordBoundarySearch (needle hay : String) : Bool :=
  wordBoundarySearchL needle.data hay.data

/-- The external regex engine for skill `patterns`
(`re.search(pattern, prompt_lower, re.IGNORECASE)`); `none` models a
`re.error` raised for a malformed pattern. -/
abbrev RegexOracle := String → String → Option Bool

/-- The trigger loop body: `trigger.lower()` (an `AttributeError` for a
non-string trigger propagates) and a word-boundary search, one point per
hit. -/
def countTriggerHitsList (prompt_lower : String) : List Json → PyResult Nat
  | [] => .ok 0
  | t :: rest => do
    let tl ← Json.pyLowerStr t
    let n ← countTriggerHitsList prompt_lower rest
    .ok ((if wordBoundarySearch tl prompt_lower then 1 else 0) + n)

/-- `for trigger in triggers: ...` over an arbitrary JSON `triggers`
value. -/
def countTriggerHits (prompt_lower : String) (triggers : Json) : PyResult Nat := do
  countTriggerHitsList prompt_lower (← Json.pyIterList triggers)

/-- The pattern loop body of `match_skills`: a non-string pattern raises
`TypeError` in `re.search`; a malformed pattern (`re.error`) is skipped
silently; a match adds weight 2. -/
def countPatternHitsList (oracle : RegexOracle) (prompt_lower : String) :
    List Json → PyResult Nat
  | [] => .ok 0
  | p :: rest =>
    match p with
    | .str pat =>
      (countPatternHitsList oracle prompt_lower rest).map
        (fun n => (match oracle pat prompt_lower with
                   | some true => 2
                   | _ => 0) + n)
    | _ => .error .typeError

/-- `for pattern in patterns: ...` over an arbitrary JSON `patterns`
value. -/
def countPatternHits (oracle : RegexOracle) (prompt_lower : String)
    (patterns : Json) : PyResult Nat := do
  countPatternHitsList oracle prompt_lower (← Json.pyIterList patterns)

/-- The project-agent collector of `match_agent_categories`: for every
agent of a matched category, record its name when it is in the
`project_agents` set (a set-membership test, so an unhashable name
raises). -/
def collectProjAgents (project_agents : List Json) : List Json → PyResult (List Json)
  | [] => .ok []
  | a :: rest => do
    let n ← Json.pyGetD a "name" (.str "")
    let isProj ← Json.pyInSet n project_agents
    let more ← collectProjAgents project_agents rest
    .ok (if isProj then n :: more else more)

/-- The category loop of `match_agent_categories`: count trigger hits per
category; categories with a positive count are kept (with their `agents`
value) and their agents are scanned for project-specific names. -/
def processCategories (prompt_lower : String) (project_agents : List Json) :
    List (String × Json) → PyResult (List (String × Nat × Json) × List Json)
  | [] => .ok ([], [])
  | (name, category_data) :: rest => do
    let triggers ← Json.pyGetD category_data "triggers" (.arr [])
    let agents ← Json.pyGetD category_data "agents" (.arr [])
    let cnt ← countTriggerHits prompt_lower triggers
    let head ←
      if cnt > 0 then do
        let al ← Json.pyIterList agents
        let pn ← collectProjAgents project_agents al
        pure ([(name, cnt, agents)], pn)
      else
        pure (([], []) : List (String × Nat × Json) × List Json)
    let tail ← processCategories prompt_lower project_agents rest
    .ok (head.1 ++ tail.1, head.2 ++ tail.2)

/-- Stable insertion keeping counts descending (`list.sort(key=...,
reverse=True)` is a stable descending sort). -/
def insertByCountDesc (x : String × Nat × Json) :
    List (String × Nat × Json) → List (String × Nat × Json)
  | [] => [x]
  | y :: ys => if y.2.1 ≥ x.2.1 then y :: insertByCountDesc x ys else x :: y :: ys

/-- Stable sort by descending match count. -/
def sortByCountDesc (l : List (String × Nat × Json)) : List (String × Nat × Json) :=
  l.foldl (fun acc x => insertByCountDesc x acc) []

/-- `match_agent_categories`: match the prompt against agent category
triggers, returning `(category_name, match_count, agents)` tuples sorted
by descending count, and the project-specific agent names that matched. -/
def match_agent_categories (prompt : String) (rules : Json)
    (project_agents : List Json) :
    PyResult (List (String × Nat × Json) × List Json) := do
  let prompt_lower := normalize_text prompt
  let categories ← Json.pyGetD rules "agent_categories" (.obj [])
  let items ← Json.pyItems categories
  let res ← processCategories prompt_lower project_agents items
  .ok (sortByCountDesc res.1, res.2)

/-- The skill loop of `match_skills`: trigger hits weigh 1 and pattern
hits weigh 2; skills with positive weight are kept and project-sourced
skill names are collected. -/
def processSkills (oracle : RegexOracle) (prompt_lower : String)
    (project_skills : List Json) :
    List (String × Json) → PyResult (List (String × Nat × Json) × List String)
  | [] => .ok ([], [])
  | (skill_name, skill_data) :: rest => do
    let triggers ← Json.pyGetD skill_data "triggers" (.arr [])
    let patterns ← Json.pyGetD skill_data "patterns" (.arr [])
    let purpose ← Json.pyGetD skill_data "purpose" (.str "")
    let c1 ← countTriggerHits prompt_lower triggers
    let c2 ← countPatternHits oracle prompt_lower patterns
    let cnt := c1 + c2
    let head :=
      if cnt > 0 then
        (([(skill_name, cnt, purpose)],
          if project_skills.contains (.str skill_name) then [skill_name] else [])
          : List (String × Nat × Json) × List String)
      else ([], [])
    let tail ← processSkills oracle prompt_lower project_skills rest
    .ok (head.1 ++ tail.1, head.2 ++ tail.2)

/-- `match_skills`: match the prompt against skill triggers and patterns,
returning `(skill_name, match_count, purpose)` tuples sorted by
descending count, and the project-specific skill names that matched. -/
def match_skills (oracle : RegexOracle) (prompt : String) (rules : Json)
    (project_skills : List Json) :
    PyResult (List (String × Nat × Json) × List String) := do
  let prompt_lower := normalize_text prompt
  let skills ← Json.pyGetD rules "skills" (.obj [])
  let items ← Json.pyItems skills
  let res ← processSkills oracle prompt_lower project_skills items
  .ok (sortByCountDesc res.1, res.2)

/-- The aggregation loop of `analyze_prompt` over sorted category
matches: category names in order, the first two agents of each category
(`agents[:2]`), and the summed counts. -/
def extractAgents :
    List (String × Nat × Json) → PyResult (List String × List Json × Nat)
  | [] => .ok ([], [], 0)
  | (name, cnt, agents) :: rest => do
    let sl ← Json.pySliceElems agents 2
    let tail ← extractAgents rest
    .ok (name :: tail.1, sl ++ tail.2.1, cnt + tail.2.2)

/-- The deduplication loop of `analyze_prompt`: keep agents whose
`name` is truthy and unseen (a set test, so an unhashable truthy name
raises). -/
def dedupAgents (seen : List Json) : List Json → PyResult (List Json)
  | [] => .ok []
  | a :: rest => do
    let n ← Json.pyGetD a "name" (.str "")
    if n.truthy then do
      let mem ← Json.pyInSet n seen
      if mem then dedupAgents seen rest
      else do
        let more ← dedupAgents (seen ++ [n]) rest
        .ok (a :: more)
    else dedupAgents seen rest

/-- `analyze_prompt`: analyze a prompt against the rules and return
matches. -/
def analyze_prompt (oracle : RegexOracle) (prompt : String) (rules : Json)
    (project_agents project_skills : List Json) : PyResult MatchResult := do
  let word_count := count_words prompt
  let cm ← match_agent_categories prompt rules project_agents
  let (category_matches, matched_proj_agents) := cm
  let ex ← extractAgents category_matches
  let (matched_categories, raw_agents, cat_count) := ex
  let sm ← match_skills oracle prompt rules project_skills
  let (skill_matches, matched_proj_skills) := sm
  let top_skills := skill_matches.take 3
  let matched_skills := top_skills.map (fun t => t.1)
  let skill_count := (top_skills.map (fun t => t.2.1)).sum
  let unique_agents ← dedupAgents [] raw_agents
  .ok { matched_categories := matched_categories
        matched_agents := unique_agents.take 4
        matched_skills := matched_skills
        match_count := cat_count + skill_count
        word_count := word_count
        project_matched_agents := matched_proj_agents
        project_matched_skills := matched_proj_skills
        has_project_matches :=
          !(matched_proj_agents.isEmpty && matched_proj_skills.isEmpty) }

-- === Scenario determination (router.py) ===

/-- `determine_scenario`: which scenario applies based on matches and
prompt length. -/
def determine_scenario (result : MatchResult) (config : RouterConfig) : Scenario :=
  let has_agents := result.matched_agents.length > 0
  let has_skills := result.matched_skills.length > 0
  let is_short := decide ((result.word_count : Int) < config.short_threshold)
  if has_agents && has_skills then .agents_and_skills
  else if has_agents then .agents_only
  else if has_skills then .skills_only
  else if is_short then .short_no_match
  else .long_no_match

-- === Rules merging and validation (router.py) ===

/-- `project_skills.update(v)` for a list value in `project_context`
(adding an unhashable element raises). -/
def updateSet (s : List Json) : List Json → PyResult (List Json)
  | [] => .ok s
  | x :: rest => do
    let s' ← Json.setAdd s x
    updateSet s' rest

/-- The `project_context` item loop of `merge_rules`: only values that
are lists contribute, their elements all go into the project-skill set. -/
def mergeProjectContextItems (project_skills : List Json) :
    List (String × Json) → PyResult (List Json)
  | [] => .ok project_skills
  | (_, v) :: rest => do
    let s' ←
      match v with
      | .arr xs => updateSet project_skills xs
      | _ => pure project_skills
    mergeProjectContextItems s' rest

/-- The `project_context` step of `merge_rules`. -/
def mergeProjectContext (project_rules : Json) (project_skills : List Json) :
    PyResult (List Json) := do
  let hasIt ← Json.pyContains project_rules "project_context"
  if hasIt then do
    let pc ← Json.pySub project_rules "project_context"
    let items ← Json.pyItems pc
    mergeProjectContextItems project_skills items
  else .ok project_skills

/-- Mark every agent of a category as project-specific
(`project_agents.add(agent.get("name", ""))`). -/
def markCategoryAgents (project_agents : List Json) :
    List Json → PyResult (List Json)
  | [] => .ok project_agents
  | a :: rest => do
    let n ← Json.pyGetD a "name" (.str "")
    let pa ← Json.setAdd project_agents n
    markCategoryAgents pa rest

/-- The `triggers` item loop of `merge_rules`: append project triggers to
an existing category and mark all its agents as project-specific. -/
def mergeTriggersItems (merged : Json) (project_agents : List Json) :
    List (String × Json) → PyResult (Json × List Json)
  | [] => .ok (merged, project_agents)
  | (category, triggers) :: rest => do
    let cats ← Json.pyGetD merged "agent_categories" (.obj [])
    let isIn ← Json.pyContains cats category
    if isIn then do
      let ac ← Json.pySub merged "agent_categories"
      let cat ← Json.pySub ac category
      let existing ← Json.pyGetD cat "triggers" (.arr [])
      let combined ← Json.pyAdd existing triggers
      let cat' ← Json.pySubSet cat "triggers" combined
      let ac' ← Json.pySubSet ac category cat'
      let merged' ← Json.pySubSet merged "agent_categories" ac'
      let agents ← Json.pyGetD cat' "agents" (.arr [])
      let al ← Json.pyIterList agents
      let pa ← markCategoryAgents project_agents al
      mergeTriggersItems merged' pa rest
    else
      mergeTriggersItems merged project_agents rest

/-- The `skills` item loop of `merge_rules`: extend an existing skill's
triggers or insert the new skill wholesale; either way mark the skill
name as project-sourced. -/
def mergeSkillsItems (merged : Json) (project_skills : List Json) :
    List (String × Json) → PyResult (Json × List Json)
  | [] => .ok (merged, project_skills)
  | (skill_name, skill_data) :: rest => do
    let sks ← Json.pyGetD merged "skills" (.obj [])
    let isIn ← Json.pyContains sks skill_name
    let merged' ←
      if isIn then do
        let sk ← Json.pySub merged "skills"
        let entry ← Json.pySub sk skill_name
        let existing ← Json.pyGetD entry "triggers" (.arr [])
        let new_triggers ← Json.pyGetD skill_data "triggers" (.arr [])
        let combined ← Json.pyAdd existing new_triggers
        let entry' ← Json.pySubSet entry "triggers" combined
        let sk' ← Json.pySubSet sk skill_name entry'
        Json.pySubSet merged "skills" sk'
      else do
        let sk ← Json.pySub merged "skills"
        let sk' ← Json.pySubSet sk skill_name skill_data
        Json.pySubSet merged "skills" sk'
    let ps ← Json.setAdd project_skills (.str skill_name)
    mergeSkillsItems merged' ps rest

/-- `k in x` with an arbitrary JSON operand `k`, as used by
`skill_mappings` (`if skill_name in merged.get("skills", {})`). -/
def pyContainsVal (container : Json) (k : Json) : PyResult Bool :=
  match container with
  | .obj kvs =>
    if k.isHashable then
      .ok (match k with
           | .str s => kvs.any (fun kv => kv.1 = s)
           | _ => false)
    else .error .typeError
  | .arr xs => .ok (xs.contains k)
  | .str s =>
    match k with
    | .str t => .ok (hasSubList t.data s.data)
    | _ => .error .typeError
  | _ => .error .typeError

/-- The inner loop of the `skill_mappings` step: add `keyword` as a
trigger of each mapped skill that exists, without duplicating it, and
mark the skill as project-sourced. -/
def mergeSkillMappingsInner (merged : Json) (project_skills : List Json)
    (keyword : String) : List Json → PyResult (Json × List Json)
  | [] => .ok (merged, project_skills)
  | skill_name :: rest => do
    let sks ← Json.pyGetD merged "skills" (.obj [])
    let isIn ← pyContainsVal sks skill_name
    if isIn then do
      -- inside this branch `skill_name` is a string key present in the dict
      let sname ←
        match skill_name with
        | .str s => pure s
        | _ => .error .keyError
      let sk ← Json.pySub merged "skills"
      let entry ← Json.pySub sk sname
      let existing ← Json.pyGetD entry "triggers" (.arr [])
      let kwIn ← Json.pyContains existing keyword
      let merged' ←
        if kwIn then pure merged
        else do
          let tr ← Json.pySub entry "triggers"
          match tr with
          | .arr xs => do
            let entry' ← Json.pySubSet entry "triggers" (.arr (xs ++ [.str keyword]))
            let sk' ← Json.pySubSet sk sname entry'
            Json.pySubSet merged "skills" sk'
          | _ => .error .attributeError
      let ps ← Json.setAdd project_skills (.str sname)
      mergeSkillMappingsInner merged' ps keyword rest
    else
      mergeSkillMappingsInner merged project_skills keyword rest

/-- The outer loop of the `skill_mappings` step. -/
def mergeSkillMappingsItems (merged : Json) (project_skills : List Json) :
    List (String × Json) → PyResult (Json × List Json)
  | [] => .ok (merged, project_skills)
  | (keyword, skills) :: rest => do
    let sl ← Json.pyIterList skills
    let res ← mergeSkillMappingsInner merged project_skills keyword sl
    mergeSkillMappingsItems res.1 res.2 rest

/-- `merge_rules`: merge project rules into global rules, returning the
merged rules, the set of project-specific agent names and the set of
project-specific skill names.  The `json.loads(json.dumps(...))` deep
copy is the identity on values. -/
def merge_rules (global_rules : Json) (project_rules : Option Json) :
    PyResult (Json × List Json × List Json) :=
  match project_rules with
  | none => .ok (global_rules, [], [])
  | some p =>
    if !p.truthy then .ok (global_rules, [], [])
    else do
      let project_skills ← mergeProjectContext p []
      let hasT ← Json.pyContains p "triggers"
      let tRes ←
        if hasT then do
          let t ← Json.pySub p "triggers"
          let items ← Json.pyItems t
          mergeTriggersItems global_rules [] items
        else .ok (global_rules, [])
      let (merged1, project_agents) := tRes
      let hasS ← Json.pyContains p "skills"
      let sRes ←
        if hasS then do
          let s ← Json.pySub p "skills"
          let items ← Json.pyItems s
          mergeSkillsItems merged1 project_skills items
        else .ok (merged1, project_skills)
      let (merged2, project_skills2) := sRes
      let hasM ← Json.pyContains p "skill_mappings"
      let mRes ←
        if hasM then do
          let m ← Json.pySub p "skill_mappings"
          let items ← Json.pyItems m
          mergeSkillMappingsItems merged2 project_skills2 items
        else .ok (merged2, project_skills2)
      .ok (mRes.1, project_agents, mRes.2)

/-- The keys required by `validate_rules`. -/
def required_keys : List String := ["agent_categories", "skills", "injection_templates"]

/-- `all(key in rules for key in required_keys)` — short-circuits on the
first missing key; `key in rules` itself can raise for non-container
values. -/
def allContains (rules : Json) : List String → PyResult Bool
  | [] => .ok true
  | k :: rest => do
    let b ← Json.pyContains rules k
    if b then allContains rules rest else .ok false

/-- `validate_rules`: rules have the three required top-level sections
(a key-presence test only). -/
def validate_rules (rules : Json) : PyResult Bool :=
  allContains rules required_keys

-- === Template building (router.py) ===

def lbrace : Char := Char.ofNat 123

def rbrace : Char := Char.ofNat 125

/-- Python `template.format(**kvs)` scanner: doubled braces are
literals, a brace-delimited field is replaced by its keyword value
(`KeyError` for an unknown field), unbalanced braces raise.  The second
argument carries the reversed characters of the field being read, when
inside a field.  Conversion and format-spec suffixes (`\x7bx!r\x7d`,
`\x7bx:>8\x7d`) are not modelled — the router only ever formats plain
fields. -/
def pyFormatAux (kvs : List (String × String)) (field : Option (List Char)) :
    List Char → PyResult (List Char)
  | [] =>
    match field with
    | none => .ok []
    | some _ => .error .valueError
  | c :: rest =>
    match field with
    | some acc =>
      if c = rbrace then
        match List.lookup (String.mk acc.reverse) kvs with
        | some v => (pyFormatAux kvs none rest).map (fun l => v.data ++ l)
        | none => .error .keyError
      else pyFormatAux kvs (some (c :: acc)) rest
    | none =>
      if c = lbrace then
        match rest with
        | c2 :: rest2 =>
          if c2 = lbrace then (pyFormatAux kvs none rest2).map (fun l => lbrace :: l)
          else pyFormatAux kvs (some []) (c2 :: rest2)
        | [] => .error .valueError
      else if c = rbrace then
        match rest with
        | c2 :: rest2 =>
          if c2 = rbrace then (pyFormatAux kvs none rest2).map (fun l => rbrace :: l)
          else .error .valueError
        | [] => .error .valueError
      else (pyFormatAux kvs none rest).map (fun l => c :: l)

/-- `template.format(...)` on a string template. -/
def pyFormat (kvs : List (String × String)) (tmpl : String) : PyResult String :=
  (pyFormatAux kvs none tmpl.data).map (fun l => String.mk l)

/-- `"sep".join(parts)`. -/
def myJoin (sep : String) : List String → String
  | [] => ""
  | [x] => x
  | x :: y :: rest => x ++ sep ++ myJoin sep (y :: rest)

def default_short_no_match_template : String :=
  "You are an orchestrator, not an implementer. If this request involves any implementation (code, commands, file changes), delegate to an appropriate subagent. Only respond directly if this is: (1) a clarifying question, (2) a direct factual question, or (3) acknowledgment/conversation."

def default_long_no_match_template : String :=
  "You are an orchestrator. If this request involves implementation (code, commands, file changes), delegate to an appropriate subagent. Respond directly only for: questions, information lookup, or conversation."

def default_project_agents_only_pre : String :=
  "MANDATORY DELEGATION. These subagents are configured for this project:\n"

def default_project_agents_only_post : String :=
  "\n\nProject-specific matches indicate this task requires specialist handling. You MUST delegate - no exceptions. Do not rationalize \x27simple commands\x27 or \x27quick fixes\x27 as reasons to self-implement."

/-- The built-in `agents_only` template for project-specific matches. -/
def default_project_agents_only_template : String :=
  default_project_agents_only_pre ++ "\x7bagent_list\x7d" ++ default_project_agents_only_post

def default_agents_only_pre : String :=
  "You MUST delegate to one of these subagents:\n"

def default_agents_only_post : String :=
  "\n\nYou are an orchestrator - implementation belongs in subagents, not this session. The ONLY exceptions where you may skip delegation: (1) answering a direct question about concepts, (2) reading files to provide information, (3) pure conversation. If the task involves ANY implementation, commands, or file changes - delegate."

/-- The built-in `agents_only` template. -/
def default_agents_only_template : String :=
  default_agents_only_pre ++ "\x7bagent_list\x7d" ++ default_agents_only_post

def default_project_skills_only_template : String :=
  "MANDATORY: Use these project-configured skill(s): \x7bskill_list\x7d\n\nThese skills exist because the project requires specific tooling, authentication, or patterns. You MUST use them - do not attempt manual alternatives."

def default_skills_only_template : String :=
  "Use these specialized skill(s): \x7bskill_list\x7d\n\nInvoke directly or pass to a subagent. These skills exist because the task requires specialized handling. Do not attempt manual implementation of what these skills automate."

def default_project_agents_and_skills_template : String :=
  "MANDATORY DELEGATION WITH PROJECT SKILLS.\n\nDelegate to one of these subagents:\n\x7bagent_list\x7d\n\nPass these project skills in the Task prompt: \x7bskill_list\x7d\n\nProject-specific matches are NOT optional. These patterns were configured because they require specialist handling. Do not rationalize reasons to self-implement - even \x27simple\x27 tasks composed of basic commands are still implementation that belongs in a subagent."

def default_agents_and_skills_template : String :=
  "You MUST delegate to one of these subagents:\n\x7bagent_list\x7d\n\nPass these skills in the Task prompt: \x7bskill_list\x7d\n\nYou are an orchestrator - all implementation belongs in subagents. Do NOT execute commands, write code, or modify files directly. The matched skills provide specialized tooling; include them explicitly in your delegation prompt."

/-- `build_short_no_match_hint` (the configured template value is
returned as-is, whatever its JSON type). -/
def build_short_no_match_hint (rules : Json) : PyResult Json := do
  let templates ← Json.pyGetD rules "injection_templates" (.obj [])
  let template_config ← Json.pyGetD templates "short_no_match" (.obj [])
  Json.pyGetD template_config "template" (.str default_short_no_match_template)

/-- `build_long_no_match_hint`. -/
def build_long_no_match_hint (rules : Json) : PyResult Json := do
  let templates ← Json.pyGetD rules "injection_templates" (.obj [])
  let template_config ← Json.pyGetD templates "long_no_match" (.obj [])
  Json.pyGetD template_config "template" (.str default_long_no_match_template)

/-- One agent line of the hint: `f"  - {name}: {purpose}"`, with a
`[PROJECT-SPECIFIC]` marker when the name is in the project-matched
list (a plain list membership test). -/
def agentLine (result : MatchResult) (a : Json) : PyResult String := do
  let name ← Json.pyGetD a "name" (.str "")
  let purpose ← Json.pyGetD a "purpose" (.str "")
  if result.project_matched_agents.contains name then
    .ok ("  - " ++ pyStrOf name ++ ": " ++ pyStrOf purpose ++ " [PROJECT-SPECIFIC]")
  else
    .ok ("  - " ++ pyStrOf name ++ ": " ++ pyStrOf purpose)

/-- The agent-line loop of the hint builders. -/
def agentLines (result : MatchResult) : List Json → PyResult (List String)
  | [] => .ok []
  | a :: rest => do
    let l ← agentLine result a
    let more ← agentLines result rest
    .ok (l :: more)

/-- One skill entry of the hint, with a `[PROJECT]` marker when
project-sourced. -/
def skillPart (result : MatchResult) (skill : String) : String :=
  if result.project_matched_skills.contains skill then skill ++ " [PROJECT]"
  else skill

/-- `build_agents_only_hint`: hint when only agents are matched. -/
def build_agents_only_hint (result : MatchResult) (rules : Json) : PyResult Json := do
  let templates ← Json.pyGetD rules "injection_templates" (.obj [])
  let template_config ←
    if result.has_project_matches then do
      let fb ← Json.pyGetD templates "agents_only" (.obj [])
      Json.pyGetD templates "project_agents_only" fb
    else Json.pyGetD templates "agents_only" (.obj [])
  let lines ← agentLines result (result.matched_agents.take 3)
  let agent_list := myJoin "\n" lines
  let default_template :=
    if result.has_project_matches then default_project_agents_only_template
    else default_agents_only_template
  let tmpl ← Json.pyGetD template_config "template" (.str default_template)
  match tmpl with
  | .str t => (pyFormat [("agent_list", agent_list)] t).map Json.str
  | _ => .error .attributeError

/-- `build_skills_only_hint`: hint when only skills are matched. -/
def build_skills_only_hint (result : MatchResult) (rules : Json) : PyResult Json := do
  let templates ← Json.pyGetD rules "injection_templates" (.obj [])
  let template_config ←
    if result.has_project_matches then do
      let fb ← Json.pyGetD templates "skills_only" (.obj [])
      Json.pyGetD templates "project_skills_only" fb
    else Json.pyGetD templates "skills_only" (.obj [])
  let skill_list := myJoin ", " ((result.matched_skills.take 3).map (skillPart result))
  let default_template :=
    if result.has_project_matches then default_project_skills_only_template
    else default_skills_only_template
  let tmpl ← Json.pyGetD template_config "template" (.str default_template)
  match tmpl with
  | .str t => (pyFormat [("skill_list", skill_list)] t).map Json.str
  | _ => .error .attributeError

/-- `build_agents_and_skills_hint`: hint when both matched. -/
def build_agents_and_skills_hint (result : MatchResult) (rules : Json) : PyResult Json := do
  let templates ← Json.pyGetD rules "injection_templates" (.obj [])
  let template_config ←
    if result.has_project_matches then do
      let fb ← Json.pyGetD templates "agents_and_skills" (.obj [])
      Json.pyGetD templates "project_agents_and_skills" fb
    else Json.pyGetD templates "agents_and_skills" (.obj [])
  let lines ← agentLines result (result.matched_agents.take 3)
  let agent_list := myJoin "\n" lines
  let skill_list := myJoin ", " ((result.matched_skills.take 3).map (skillPart result))
  let default_template :=
    if result.has_project_matches then default_project_agents_and_skills_template
    else default_agents_and_skills_template
  let tmpl ← Json.pyGetD template_config "template" (.str default_template)
  match tmpl with
  | .str t => (pyFormat [("agent_list", agent_list), ("skill_list", skill_list)] t).map Json.str
  | _ => .error .attributeError

/-- `build_hint`: scenario dispatch. -/
def build_hint (scenario : Scenario) (result : MatchResult) (rules : Json) :
    PyResult Json :=
  match scenario with
  | .short_no_match => build_short_no_match_hint rules
  | .long_no_match => build_long_no_match_hint rules
  | .agents_only => build_agents_only_hint result rules
  | .skills_only => build_skills_only_hint result rules
  | .agents_and_skills => build_agents_and_skills_hint result rules

/-- The minimal neutral response. -/
def neutral_output : Json :=
  .obj [("hookSpecificOutput", .obj [("hookEventName", .str "UserPromptSubmit")])]

/-- The response carrying a routing hint. -/
def output_with_context (hint : Json) : Json :=
  .obj [("hookSpecificOutput",
         .obj [("hookEventName", .str "UserPromptSubmit"),
               ("additionalContext", hint)])]

/-- `build_output`: classify, render the hint, and wrap it (the debug
f-string evaluates `len(hint)` unconditionally, so a non-sized hint
value raises here). -/
def build_output (result : MatchResult) (rules : Json) (config : RouterConfig) :
    PyResult Json := do
  let scenario := determine_scenario result config
  let hint ← build_hint scenario result rules
  let _ ← Json.pyLen hint
  .ok (output_with_context hint)

-- === Hook driver (router.py main) ===

/-- The state of standard input: empty/whitespace-only, not valid JSON,
or parsed to a JSON value. -/
inductive StdinState where
  | blank : StdinState
  | invalid : StdinState
  | parsed (j : Json) : StdinState

/-- `read_input`: empty and undecodable stdin both yield `{}`; otherwise
the parsed value (of any JSON type) is returned. -/
def read_input : StdinState → Json
  | .blank => .obj []
  | .invalid => .obj []
  | .parsed j => j

/-- The prologue of `main` up to the `if not prompt:` test:
`input_data.get("prompt", "")`, `input_data.get("cwd", "")`, and the
debug f-string that evaluates `len(prompt)` and `count_words(prompt)`
unconditionally — so a non-string prompt value raises here. -/
def main_prompt (input_data : Json) : PyResult String := do
  let prompt ← Json.pyGetD input_data "prompt" (.str "")
  let _ ← Json.pyGetD input_data "cwd" (.str "")
  let _ ← Json.pyLen prompt
  match prompt with
  | .str s => .ok s
  | _ => .error .attributeError

/-- `load_project_rules`: the cwd from the input (defaulting to the
configured cwd); a falsy cwd means no project rules, a non-string cwd
raises in `os.path.join`, and otherwise the (abstracted) contents of
`.claude/router-rules.json` are returned (`load_rules_file` itself never
raises). -/
def load_project_rules (config : RouterConfig) (input_data : Json)
    (project_file : Option Json) : PyResult (Option Json) := do
  let cwd ← Json.pyGetD input_data "cwd" (.str config.cwd)
  if !cwd.truthy then .ok none
  else
    match cwd with
    | .str _ => .ok project_file
    | _ => .error .typeError

/-- `[a.get('name') for a in result.matched_agents]`, evaluated inside a
debug f-string. -/
def agentNames : List Json → PyResult (List Json)
  | [] => .ok []
  | a :: rest => do
    let n ← Json.pyGet1 a "name"
    let more ← agentNames rest
    .ok (n :: more)

/-- The non-empty-prompt pipeline of `main` after global rules have been
loaded and validated: load project rules, merge, analyze, build output.
The debug f-strings along the way evaluate `len(...)` on the merged
sections and `.get('name')` on the matched agents unconditionally. -/
def main_rest (oracle : RegexOracle) (prompt : String) (global_rules : Json)
    (input_data : Json) (project_file : Option Json) (config : RouterConfig) :
    PyResult Json := do
  let project_rules ← load_project_rules config input_data project_file
  let mres ← merge_rules global_rules project_rules
  let (merged_rules, project_agents, project_skills) := mres
  let ac ← Json.pyGetD merged_rules "agent_categories" (.obj [])
  let _ ← Json.pyLen ac
  let sk ← Json.pyGetD merged_rules "skills" (.obj [])
  let _ ← Json.pyLen sk
  let result ← analyze_prompt oracle prompt merged_rules project_agents project_skills
  let _ ← agentNames result.matched_agents
  build_output result merged_rules config

/-- The observable outcome of one driver run: the process exit code and
the single JSON object written to stdout. -/
structure MainRun where
  exit_code : Nat
  output : Json
  deriving DecidableEq

/-- `main`: the driver.  Every branch ends in `sys.exit(0)` (which the
`except Exception` handler does not catch), and any exception escaping
the pipeline is converted into the neutral response. -/
def router_main (oracle : RegexOracle) (stdin : StdinState) (global_file : Option Json)
    (project_file : Option Json) (config : RouterConfig) : MainRun :=
  let input_data := read_input stdin
  let output :=
    match main_prompt input_data with
    | .error _ => neutral_output
    | .ok prompt =>
      if prompt = "" then
        match global_file with
        | some g =>
          if g.truthy then
            match build_short_no_match_hint g with
            | .ok hint => output_with_context hint
            | .error _ => neutral_output
          else neutral_output
        | none => neutral_output
      else
        match global_file with
        | none => neutral_output
        | some g =>
          match validate_rules g with
          | .ok true =>
            match main_rest oracle prompt g input_data project_file config with
            | .ok out => out
            | .error _ => neutral_output
          | _ => neutral_output
  { exit_code := 0, output := output }

-- === Spec-modelled components (present in the repository's tests, absent from the router source) ===

/-- Top-level key access on a parsed rules document. -/
def topGet (rules : Json) (k : String) : Option Json :=
  match rules with
  | .obj kvs => Json.lookup kvs k
  | _ => none

/-- Per-category structural errors.
Modelled from the spec: each category must be a mapping containing
`triggers` (sequence) and `agents` (sequence); one message per
violation.  Message texts follow `tests/test_router.py`. -/
def categoryErrors (name : String) (cd : Json) : List String :=
  match cd with
  | .obj kvs =>
    (match Json.lookup kvs "triggers" with
     | none => ["agent_categories." ++ name ++ " missing \x27triggers\x27"]
     | some (.arr _) => []
     | some _ => ["agent_categories." ++ name ++ ".triggers must be an array"]) ++
    (match Json.lookup kvs "agents" with
     | none => ["agent_categories." ++ name ++ " missing \x27agents\x27"]
     | some (.arr _) => []
     | some _ => ["agent_categories." ++ name ++ ".agents must be an array"])
  | _ => ["agent_categories." ++ name ++ " must be an object"]

/-- Per-skill structural errors.
Modelled from the spec: each skill must be a mapping containing at least
`triggers` (sequence). -/
def skillErrors (name : String) (sd : Json) : List String :=
  match sd with
  | .obj kvs =>
    (match Json.lookup kvs "triggers" with
     | none => ["skills." ++ name ++ " missing \x27triggers\x27"]
     | some (.arr _) => []
     | some _ => ["skills." ++ name ++ ".triggers must be an array"])
  | _ => ["skills." ++ name ++ " must be an object"]

/-- All structural violations of a global rules document, in document
order.  Modelled from the spec: require top-level `agent_categories`,
`skills`, `injection_templates`, each a mapping, with per-category and
per-skill checks; collect all violations rather than stopping at the
first. -/
def structureErrors (rules : Json) : List String :=
  (match topGet rules "agent_categories" with
   | none => ["Missing required key: agent_categories"]
   | some (.obj cats) => (cats.map (fun kv => categoryErrors kv.1 kv.2)).flatten
   | some _ => ["agent_categories must be an object"]) ++
  (match topGet rules "skills" with
   | none => ["Missing required key: skills"]
   | some (.obj sks) => (sks.map (fun kv => skillErrors kv.1 kv.2)).flatten
   | some _ => ["skills must be an object"]) ++
  (match topGet rules "injection_templates" with
   | none => ["Missing required key: injection_templates"]
   | some (.obj _) => []
   | some _ => ["injection_templates must be an object"])

/-- Modelled from the spec: `validate_rules_structure` — imported and
exercised by `tests/test_router.py` but missing from the checked-in
router source — performs structural validation of the global rules
document and returns `(is_valid, errors)`. -/
def validate_rules_structure (rules : Json) : Bool × List String :=
  ((structureErrors rules).isEmpty, structureErrors rules)

/-- Spec-side well-formedness of one category (declarative counterpart
of `categoryErrors`). -/
def WellFormedCategory (cd : Json) : Prop :=
  ∃ kvs, cd = .obj kvs ∧
    (∃ ts, Json.lookup kvs "triggers" = some (.arr ts)) ∧
    (∃ ags, Json.lookup kvs "agents" = some (.arr ags))

/-- Spec-side well-formedness of one skill. -/
def WellFormedSkill (sd : Json) : Prop :=
  ∃ kvs, sd = .obj kvs ∧ (∃ ts, Json.lookup kvs "triggers" = some (.arr ts))

/-- Spec-side well-formedness of the whole rules document. -/
def WellFormedRules (rules : Json) : Prop :=
  (∃ cats, topGet rules "agent_categories" = some (.obj cats) ∧
    ∀ kv ∈ cats, WellFormedCategory kv.2) ∧
  (∃ sks, topGet rules "skills" = some (.obj sks) ∧
    ∀ kv ∈ sks, WellFormedSkill kv.2) ∧
  (∃ its, topGet rules "injection_templates" = some (.obj its))

/-- The number of distinct structural violations of one category. -/
def categoryViolations (cd : Json) : Nat :=
  match cd with
  | .obj kvs =>
    (match Json.lookup kvs "triggers" with
     | some (.arr _) => 0
     | _ => 1) +
    (match Json.lookup kvs "agents" with
     | some (.arr _) => 0
     | _ => 1)
  | _ => 1

/-- The number of distinct structural violations of one skill. -/
def skillViolations (sd : Json) : Nat :=
  match sd with
  | .obj kvs =>
    (match Json.lookup kvs "triggers" with
     | some (.arr _) => 0
     | _ => 1)
  | _ => 1

/-- The number of distinct structural violations of the document. -/
def countViolations (rules : Json) : Nat :=
  (match topGet rules "agent_categories" with
   | none => 1
   | some (.obj cats) => (cats.map (fun kv => categoryViolations kv.2)).sum
   | some _ => 1) +
  (match topGet rules "skills" with
   | none => 1
   | some (.obj sks) => (sks.map (fun kv => skillViolations kv.2)).sum
   | some _ => 1) +
  (match topGet rules "injection_templates" with
   | none => 1
   | some (.obj _) => 0
   | some _ => 1)

/-- The catch-all category reserved for ungrouped utility agents. -/
def utility_category : String := "utility"

/-- The generic placeholder purpose for a custom agent without a
description (text as asserted by `tests/test_router.py`). -/
def default_custom_agent_purpose : String := "Custom project agent"

/-- The AgentDescriptor built from a custom agent's fields: `purpose`
defaults to the generic placeholder and `tools` to an empty list. -/
def customAgentDescriptor (name : String) (dk : List (String × Json)) : Json :=
  .obj [("name", .str name),
        ("purpose", (Json.lookup dk "description").getD (.str default_custom_agent_purpose)),
        ("tools", (Json.lookup dk "tools").getD (.arr []))]

/-- The per-entry loop of the custom-agents merge, threading the
catch-all category's agent list and trigger list and the
project-agent-name set.  Entries that are not mappings are skipped
silently; `triggers` values that are not sequences are skipped silently
(the agent is still added and marked). -/
def mergeCustomAgentsCore (agents triggers project_agents : List Json) :
    List (String × Json) → List Json × List Json × List Json
  | [] => (agents, triggers, project_agents)
  | (name, data) :: rest =>
    match data with
    | .obj dk =>
      let newTriggers :=
        match Json.lookup dk "triggers" with
        | some (.arr ts) => triggers ++ ts
        | _ => triggers
      let pa :=
        if project_agents.contains (.str name) then project_agents
        else project_agents ++ [.str name]
      mergeCustomAgentsCore (agents ++ [customAgentDescriptor name dk]) newTriggers pa rest
    | _ => mergeCustomAgentsCore agents triggers project_agents rest

/-- Modelled from the spec: the `custom_agents` merge step of
`merge_rules` (§4.1 step 5) — exercised by `tests/test_router.py` but
missing from the checked-in router source.  When the catch-all category
exists in the merged set, each well-formed custom agent is appended to
its agent list as an AgentDescriptor, its trigger strings are appended
to the category's trigger list, and its name is marked project-sourced;
when the catch-all category does not exist, custom agents are silently
dropped. -/
def merge_custom_agents (merged : Json) (project_agents : List Json)
    (custom_agents : List (String × Json)) : Json × List Json :=
  match merged with
  | .obj mkvs =>
    match Json.lookup mkvs "agent_categories" with
    | some (.obj ckvs) =>
      match Json.lookup ckvs utility_category with
      | some (.obj ukvs) =>
        let agents0 :=
          match Json.lookup ukvs "agents" with
          | some (.arr l) => l
          | _ => []
        let triggers0 :=
          match Json.lookup ukvs "triggers" with
          | some (.arr l) => l
          | _ => []
        let res := mergeCustomAgentsCore agents0 triggers0 project_agents custom_agents
        let util' : Json :=
          .obj (Json.setField (Json.setField ukvs "agents" (.arr res.1))
                  "triggers" (.arr res.2.1))
        (.obj (Json.setField mkvs "agent_categories"
                 (.obj (Json.setField ckvs utility_category util'))),
         res.2.2)
      | _ => (merged, project_agents)
    | _ => (merged, project_agents)
  | _ => (merged, project_agents)

/-- The agent list of the catch-all category of a merged document. -/
def utilityAgents (j : Json) : List Json :=
  match j with
  | .obj mkvs =>
    match Json.lookup mkvs "agent_categories" with
    | some (.obj ckvs) =>
      match Json.lookup ckvs utility_category with
      | some (.obj ukvs) =>
        match Json.lookup ukvs "agents" with
        | some (.arr l) => l
        | _ => []
      | _ => []
    | _ => []
  | _ => []

/-- The trigger list of the catch-all category of a merged document. -/
def utilityTriggers (j : Json) : List Json :=
  match j with
  | .obj mkvs =>
    match Json.lookup mkvs "agent_categories" with
    | some (.obj ckvs) =>
      match Json.lookup ckvs utility_category with
      | some (.obj ukvs) =>
        match Json.lookup ukvs "triggers" with
        | some (.arr l) => l
        | _ => []
      | _ => []
    | _ => []
  | _ => []

/-- Whether the catch-all category exists in the merged document. -/
def hasUtilityCategory (j : Json) : Bool :=
  match j with
  | .obj mkvs =>
    match Json.lookup mkvs "agent_categories" with
    | some (.obj ckvs) =>
      match Json.lookup ckvs utility_category with
      | some (.obj _) => true
      | _ => false
    | _ => false
  | _ => false

-- === Observables and statement-level helpers ===

/-- The emitted object has the `hookSpecificOutput.hookEventName =
"UserPromptSubmit"` shape. -/
def is_hook_output (out : Json) : Bool :=
  match out with
  | .obj kvs =>
    match Json.lookup kvs "hookSpecificOutput" with
    | some (.obj hk) =>
      match Json.lookup hk "hookEventName" with
      | some (.str s) => s == "UserPromptSubmit"
      | _ => false
    | _ => false
  | _ => false

/-- The emitted object carries an `additionalContext` field. -/
def has_context (out : Json) : Bool :=
  match out with
  | .obj kvs =>
    match Json.lookup kvs "hookSpecificOutput" with
    | some (.obj hk) => (Json.lookup hk "additionalContext").isSome
    | _ => false
  | _ => false

/-- The recoverable-run condition: the driver's run produces a routing
hint exactly when the prompt was extracted as a string and then either
(empty prompt) the global rules loaded truthy and the short hint built
without an exception, or (non-empty prompt) the global rules loaded,
passed `validate_rules`, and the remaining pipeline raised no exception.
Its negation enumerates the unrecoverable cases: global rules missing or
invalid, or an exception anywhere in the pipeline. -/
def ctx_present (oracle : RegexOracle) (stdin : StdinState)
    (global_file : Option Json) (project_file : Option Json)
    (config : RouterConfig) : Bool :=
  match main_prompt (read_input stdin) with
  | .error _ => false
  | .ok prompt =>
    if prompt = "" then
      match global_file with
      | some g =>
        g.truthy &&
          (match build_short_no_match_hint g with
           | .ok _ => true
           | .error _ => false)
      | none => false
    else
      match global_file with
      | none => false
      | some g =>
        match validate_rules g with
        | .ok true =>
          (match main_rest oracle prompt g (read_input stdin) project_file config with
           | .ok _ => true
           | .error _ => false)
        | _ => false

/-- The template value `build_agents_only_hint` will format with
(configured template if present, else the built-in default). -/
def effective_agents_only_template (result : MatchResult) (rules : Json) :
    PyResult Json := do
  let templates ← Json.pyGetD rules "injection_templates" (.obj [])
  let template_config ←
    if result.has_project_matches then do
      let fb ← Json.pyGetD templates "agents_only" (.obj [])
      Json.pyGetD templates "project_agents_only" fb
    else Json.pyGetD templates "agents_only" (.obj [])
  let default_template :=
    if result.has_project_matches then default_project_agents_only_template
    else default_agents_only_template
  Json.pyGetD template_config "template" (.str default_template)

/-- A regex engine that matches nothing (fixtures below use no
patterns, so any oracle behaves identically on them). -/
def no_regex_oracle : RegexOracle := fun _ _ => some false

/-- A configuration with the default threshold. -/
def test_config : RouterConfig :=
  { rules_path := "router-rules.json", debug := false, short_threshold := 5, cwd := "" }

/-- Fixture: two categories of two agents each, so that four agents
match while the hint renders only three. -/
def c5_rules : Json :=
  .obj [("agent_categories", .obj
          [("alphacat", .obj
             [("triggers", .arr [.str "alpha"]),
              ("agents", .arr
                [.obj [("name", .str "agentone"), ("purpose", .str "first one")],
                 .obj [("name", .str "agenttwo"), ("purpose", .str "second one")]])]),
           ("betacat", .obj
             [("triggers", .arr [.str "beta"]),
              ("agents", .arr
                [.obj [("name", .str "agentthree"), ("purpose", .str "third one")],
                 .obj [("name", .str "agentfour"), ("purpose", .str "fourth one")]])])]),
        ("skills", .obj []),
        ("injection_templates", .obj [])]

/-- The analyzer's result on the four-agent fixture. -/
def c5_result : MatchResult :=
  match analyze_prompt no_regex_oracle "alpha beta" c5_rules [] [] with
  | .ok r => r
  | .error _ =>
    { matched_categories := [], matched_agents := [], matched_skills := [],
      match_count := 0, word_count := 0, project_matched_agents := [],
      project_matched_skills := [], has_project_matches := false }

/-- The hint rendered on the four-agent fixture. -/
def c5_hint : String :=
  match build_agents_only_hint c5_result c5_rules with
  | .ok (.str h) => h
  | _ => ""

/-- Fixture: a single category with a single agent. -/
def c5w_rules : Json :=
  .obj [("agent_categories", .obj
          [("development", .obj
             [("triggers", .arr [.str "implement"]),
              ("agents", .arr
                [.obj [("name", .str "frontend-developer"),
                       ("purpose", .str "UI development")]])])]),
        ("skills", .obj []),
        ("injection_templates", .obj [])]

/-- The analyzer's result on the single-agent fixture for the prompt
"implement the feature". -/
def c5w_result : MatchResult :=
  match analyze_prompt no_regex_oracle "implement the feature" c5w_rules [] [] with
  | .ok r => r
  | .error _ =>
    { matched_categories := [], matched_agents := [], matched_skills := [],
      match_count := 0, word_count := 0, project_matched_agents := [],
      project_matched_skills := [], has_project_matches := false }

/-- The hint rendered on the single-agent fixture. -/
def c5w_hint : String :=
  match build_agents_only_hint c5w_result c5w_rules with
  | .ok (.str h) => h
  | _ => ""

/-- Fixture: one category triggered by the keyword "implement". -/
def c6_rules : Json :=
  .obj [("agent_categories", .obj
          [("development", .obj
             [("triggers", .arr [.str "implement"]),
              ("agents", .arr [.obj [("name", .str "frontend-developer")]])])]),
        ("skills", .obj []),
        ("injection_templates", .obj [])]

/-- Fixture rules for the project-provenance flag. -/
def c7_rules : Json := c6_rules

/-- The analyzer's result on the provenance fixture with
`frontend-developer` marked project-sourced. -/
def c7_result : MatchResult :=
  match analyze_prompt no_regex_oracle "implement the feature" c7_rules
      [.str "frontend-developer"] [] with
  | .ok r => r
  | .error _ =>
    { matched_categories := [], matched_agents := [], matched_skills := [],
      match_count := 0, word_count := 0, project_matched_agents := [],
      project_matched_skills := [], has_project_matches := false }

/-- Fixture: a global skill `myskill`, named by a project
`project_context` list but defined only globally. -/
def c10_global : Json :=
  .obj [("agent_categories", .obj []),
        ("skills", .obj
          [("myskill", .obj
             [("triggers", .arr [.str "mykey"]),
              ("purpose", .str "the skill")])]),
        ("injection_templates", .obj [])]

/-- Fixture project rules naming `myskill` in a `project_context`
list. -/
def c10_project_fields : List (String × Json) :=
  [("project_context", .obj [("stack", .arr [.str "myskill"])])]

/-- A whole-word occurrence: the needle occurs contiguously at a
position flanked on both sides by word boundaries. -/
def WholeWordOccurrence (needle hay : List Char) : Prop :=
  ∃ i, i + needle.length ≤ hay.length ∧
    (hay.drop i).take needle.length = needle ∧
    boundaryAt hay i = true ∧
    boundaryAt hay (i + needle.length) = true

-- === Helper lemmas ===

theorem sublist_of_hasSubList {α : Type} [DecidableEq α] {needle hay : List α}
    (h : hasSubList needle hay = true) : needle <:+: hay := by
  induction hay with
  | nil =>
    simp [hasSubList, List.isEmpty_iff] at h
    simp [h]
  | cons c rest ih =>
    simp only [hasSubList, Bool.or_eq_true] at h
    rcases h with h | h
    · exact ((List.isPrefixOf_iff_prefix).mp h).isInfix
    · exact (ih h).trans (List.suffix_cons c rest).isInfix

theorem hasSubList_of_sublist {α : Type} [DecidableEq α] {needle hay : List α}
    (h : needle <:+: hay) : hasSubList needle hay = true := by
  induction hay with
  | nil =>
    rw [List.infix_nil] at h
    simp [h, hasSubList]
  | cons c rest ih =>
    rw [List.infix_cons_iff] at h
    simp only [hasSubList, Bool.or_eq_true]
    rcases h with h | h
    · exact Or.inl (List.isPrefixOf_iff_prefix.mpr h)
    · exact Or.inr (ih h)

theorem hasSubList_iff {α : Type} [DecidableEq α] {needle hay : List α} :
    hasSubList needle hay = true ↔ needle <:+: hay :=
  ⟨sublist_of_hasSubList, hasSubList_of_sublist⟩

theorem strContains_iff {hay needle : String} :
    strContains hay needle ↔ needle.data <:+: hay.data := by
  unfold strContains strContainsB
  exact hasSubList_iff

-- === C8 ===

/-- C8: for every global rule set, merging a `None` (absent) project
rules document yields the global rule set unchanged together with an
empty set of project agent names and an empty set of project skill
names. -/
theorem merge_rules_none_identity (global_rules : Json) :
    merge_rules global_rules none = .ok (global_rules, [], []) := rfl

-- === C2 ===

/-- C2: the scenario classifier is a pure function of
`(has_agents, has_skills, is_short)` with `is_short` = word count
strictly below the threshold (default 5); the five outcomes are
characterized disjointly and exhaustively in the stated precedence
order. -/
theorem determine_scenario_decision_table :
    DEFAULT_SHORT_THRESHOLD = 5 ∧
    (∀ (result : MatchResult) (config : RouterConfig),
      (determine_scenario result config = .agents_and_skills ↔
        result.matched_agents ≠ [] ∧ result.matched_skills ≠ []) ∧
      (determine_scenario result config = .agents_only ↔
        result.matched_agents ≠ [] ∧ result.matched_skills = []) ∧
      (determine_scenario result config = .skills_only ↔
        result.matched_agents = [] ∧ result.matched_skills ≠ []) ∧
      (determine_scenario result config = .short_no_match ↔
        result.matched_agents = [] ∧ result.matched_skills = [] ∧
          (result.word_count : Int) < config.short_threshold) ∧
      (determine_scenario result config = .long_no_match ↔
        result.matched_agents = [] ∧ result.matched_skills = [] ∧
          ¬ (result.word_count : Int) < config.short_threshold)) ∧
    (∀ (r r' : MatchResult) (c c' : RouterConfig),
      (r.matched_agents = [] ↔ r'.matched_agents = []) →
      (r.matched_skills = [] ↔ r'.matched_skills = []) →
      (((r.word_count : Int) < c.short_threshold) ↔
        ((r'.word_count : Int) < c'.short_threshold)) →
      determine_scenario r c = determine_scenario r' c') := by
  refine ⟨rfl, ?_, ?_⟩
  · intro result config
    by_cases hA : result.matched_agents = [] <;>
      by_cases hS : result.matched_skills = [] <;>
        by_cases hW : (result.word_count : Int) < config.short_threshold <;>
          simp [determine_scenario, hA, hS, hW, List.length_pos]
  · intro r r' c c' h1 h2 h3
    by_cases hA : r.matched_agents = [] <;>
      by_cases hS : r.matched_skills = [] <;>
        by_cases hW : (r.word_count : Int) < c.short_threshold <;>
          simp [determine_scenario, hA, hS, hW, h1.symm.mp, h1.mp,
            h2.symm.mp, h2.mp, h3.symm.mp, h3.mp, List.length_pos,
            h1.not.mp, h2.not.mp, h3.not.mp]

/-- Witness for C2 at a concrete input. -/
theorem determine_scenario_decision_table_witness :
    determine_scenario
      { matched_categories := [], matched_agents := [], matched_skills := [],
        match_count := 0, word_count := 2, project_matched_agents := [],
        project_matched_skills := [], has_project_matches := false }
      test_config = .short_no_match :=
  ((determine_scenario_decision_table.2.1 _ _).2.2.2.1).mpr (by decide)

-- === C6 ===

/-- C6: trigger keyword matching is anchored at word boundaries — a
trigger hits exactly when it occurs as a whole word in the normalized
prompt; in particular "The implementation details" yields zero hits for
the trigger "implement". -/
theorem word_boundary_matching :
    (∀ needle hay : String,
      wordBoundarySearch needle hay = true ↔
        WholeWordOccurrence needle.data hay.data) ∧
    match_agent_categories "The implementation details" c6_rules [] = .ok ([], []) := by
  constructor
  · intro needle hay
    unfold wordBoundarySearch wordBoundarySearchL WholeWordOccurrence
    simp only [List.any_eq_true, List.mem_range, Bool.and_eq_true, decide_eq_true_eq]
    constructor
    · rintro ⟨i, _, ⟨⟨h1, h2⟩, h3⟩, h4⟩
      exact ⟨i, h1, h2, h3, h4⟩
    · rintro ⟨i, h1, h2, h3, h4⟩
      exact ⟨i, by omega, ⟨⟨h1, h2⟩, h3⟩, h4⟩
  · decide

-- === C9 ===

/-- C9: matching is case-insensitive — two prompts with the same
case-folding produce identical category and skill match results (the
analyzer compares against the case-folded prompt only). -/
theorem matching_case_insensitive (oracle : RegexOracle) (rules : Json)
    (project_agents project_skills : List Json) (p1 p2 : String)
    (h : strLower p1 = strLower p2) :
    match_agent_categories p1 rules project_agents
      = match_agent_categories p2 rules project_agents ∧
    match_skills oracle p1 rules project_skills
      = match_skills oracle p2 rules project_skills := by
  have hn : normalize_text p1 = normalize_text p2 := by
    unfold normalize_text
    rw [h]
  constructor
  · simp only [match_agent_categories]
    rw [hn]
  · simp only [match_skills]
    rw [hn]

/-- Witness for C9 on the spec's example pair. -/
theorem matching_case_insensitive_witness :
    match_agent_categories "IMPLEMENT the feature" c6_rules []
      = match_agent_categories "implement the feature" c6_rules [] ∧
    match_skills no_regex_oracle "IMPLEMENT the feature" c6_rules []
      = match_skills no_regex_oracle "implement the feature" c6_rules [] :=
  matching_case_insensitive no_regex_oracle c6_rules [] [] _ _ (by decide)

theorem except_bind_ok {ε α β : Type} (a : α) (f : α → Except ε β) :
    ((Except.ok a : Except ε α) >>= f) = f a := rfl

theorem except_bind_error {ε α β : Type} (e : ε) (f : α → Except ε β) :
    ((Except.error e : Except ε α) >>= f) = .error e := rfl

theorem except_pure_eq {ε α : Type} (a : α) :
    (pure a : Except ε α) = .ok a := rfl

theorem collectProjAgents_sound {pa : List Json} :
    ∀ {as out : List Json}, collectProjAgents pa as = .ok out →
      ∀ n ∈ out, n ∈ pa := by
  intro as
  induction as with
  | nil =>
    intro out h
    unfold collectProjAgents at h
    cases h
    simp
  | cons a rest ih =>
    intro out h
    unfold collectProjAgents at h
    cases hn : Json.pyGetD a "name" (.str "") with
    | error e =>
      rw [hn] at h
      simp only [except_bind_error] at h
      exact Except.noConfusion h
    | ok n =>
      rw [hn] at h
      simp only [except_bind_ok] at h
      cases hp : Json.pyInSet n pa with
      | error e =>
        rw [hp] at h
        simp only [except_bind_error] at h
        exact Except.noConfusion h
      | ok isProj =>
        rw [hp] at h
        simp only [except_bind_ok] at h
        cases hm : collectProjAgents pa rest with
        | error e =>
          rw [hm] at h
          simp only [except_bind_error] at h
          exact Except.noConfusion h
        | ok more =>
          rw [hm] at h
          simp only [except_bind_ok] at h
          injection h with h'
          subst h'
          intro x hx
          have hmore := ih hm
          by_cases hip : isProj = true
          · subst hip
            simp only [if_pos rfl] at hx
            rcases List.mem_cons.mp hx with hx | hx
            · subst hx
              unfold Json.pyInSet at hp
              split at hp
              · injection hp with hp'
                simpa using hp'.symm
              · exact Except.noConfusion hp
            · exact hmore x hx
          · rw [Bool.not_eq_true] at hip
            subst hip
            simp only [Bool.false_eq_true, if_false] at hx
            exact hmore x hx

theorem processCategories_sound {pl : String} {pa : List Json} :
    ∀ {items : List (String × Json)} {res : List (String × Nat × Json)}
      {projA : List Json},
      processCategories pl pa items = .ok (res, projA) →
      ∀ n ∈ projA, n ∈ pa := by
  intro items
  induction items with
  | nil =>
    intro res projA h
    unfold processCategories at h
    cases h
    simp
  | cons it rest ih =>
    intro res projA h
    obtain ⟨name, category_data⟩ := it
    unfold processCategories at h
    cases h1 : Json.pyGetD category_data "triggers" (.arr []) with
    | error e =>
      rw [h1] at h
      simp only [except_bind_error] at h
      exact Except.noConfusion h
    | ok triggers =>
      rw [h1] at h
      simp only [except_bind_ok] at h
      cases h2 : Json.pyGetD category_data "agents" (.arr []) with
      | error e =>
        rw [h2] at h
        simp only [except_bind_error] at h
        exact Except.noConfusion h
      | ok agents =>
        rw [h2] at h
        simp only [except_bind_ok] at h
        cases h3 : countTriggerHits pl triggers with
        | error e =>
          rw [h3] at h
          simp only [except_bind_error] at h
          exact Except.noConfusion h
        | ok cnt =>
          rw [h3] at h
          simp only [except_bind_ok] at h
          by_cases hc : cnt > 0
          · rw [if_pos hc] at h
            cases h4 : Json.pyIterList agents with
            | error e =>
              rw [h4] at h
              simp only [except_bind_error] at h
              exact Except.noConfusion h
            | ok al =>
              rw [h4] at h
              simp only [except_bind_ok] at h
              cases h5 : collectProjAgents pa al with
              | error e =>
                rw [h5] at h
                simp only [except_bind_error] at h
                exact Except.noConfusion h
              | ok pn =>
                rw [h5] at h
                simp only [except_bind_ok, except_pure_eq] at h
                cases h6 : processCategories pl pa rest with
                | error e =>
                  rw [h6] at h
                  simp only [except_bind_error] at h
                  exact Except.noConfusion h
                | ok tail =>
                  rw [h6] at h
                  simp only [except_bind_ok] at h
                  injection h with h'
                  injection h' with ha hb
                  subst hb
                  intro n hn
                  rcases List.mem_append.mp hn with hn | hn
                  · exact collectProjAgents_sound h5 n hn
                  · exact ih h6 n hn
          · rw [if_neg hc] at h
            simp only [except_bind_ok, except_pure_eq] at h
            cases h6 : processCategories pl pa rest with
            | error e =>
              rw [h6] at h
              simp only [except_bind_error] at h
              exact Except.noConfusion h
            | ok tail =>
              rw [h6] at h
              simp only [except_bind_ok] at h
              injection h with h'
              injection h' with ha hb
              subst hb
              intro n hn
              rcases List.mem_append.mp hn with hn | hn
              · simp at hn
              · exact ih h6 n hn

theorem except_bind_ok_iff {ε α β : Type} {e : Except ε α} {f : α → Except ε β}
    {b : β} : (e >>= f) = .ok b ↔ ∃ a, e = .ok a ∧ f a = .ok b := by
  cases e with
  | error er => simp [except_bind_error]
  | ok a => simp [except_bind_ok]

theorem except_map_ok_iff {ε α β : Type} {e : Except ε α} {f : α → β} {b : β} :
    (e.map f) = .ok b ↔ ∃ a, e = .ok a ∧ f a = b := by
  cases e with
  | error er => simp [Except.map]
  | ok a => simp [Except.map]

theorem processSkills_sound {oracle : RegexOracle} {pl : String} {ps : List Json} :
    ∀ {items : List (String × Json)} {res : List (String × Nat × Json)}
      {projS : List String},
      processSkills oracle pl ps items = .ok (res, projS) →
      ∀ n ∈ projS, (Json.str n) ∈ ps := by
  intro items
  induction items with
  | nil =>
    intro res projS h
    unfold processSkills at h
    cases h
    simp
  | cons it rest ih =>
    intro res projS h
    obtain ⟨skill_name, skill_data⟩ := it
    unfold processSkills at h
    simp only [except_bind_ok_iff] at h
    obtain ⟨triggers, h1, patterns, h2, purpose, h3, c1, h4, c2, h5, tail, h6, h⟩ := h
    injection h with h'
    injection h' with ha hb
    subst hb
    intro n hn
    rcases List.mem_append.mp hn with hn | hn
    · by_cases hc : c1 + c2 > 0
      · rw [if_pos hc] at hn
        by_cases hmem : ps.contains (.str skill_name) = true
        · rw [if_pos hmem] at hn
          simp at hn
          subst hn
          simpa using hmem
        · rw [if_neg hmem] at hn
          simp at hn
      · rw [if_neg hc] at hn
        simp at hn
    · exact ih h6 n hn

theorem match_agent_categories_sound {prompt : String} {rules : Json}
    {pa : List Json} {res : List (String × Nat × Json)} {projA : List Json}
    (h : match_agent_categories prompt rules pa = .ok (res, projA)) :
    ∀ n ∈ projA, n ∈ pa := by
  unfold match_agent_categories at h
  simp only [except_bind_ok_iff] at h
  obtain ⟨categories, h1, items, h2, r0, h3, h⟩ := h
  obtain ⟨rs, pj⟩ := r0
  injection h with h'
  injection h' with ha hb
  subst hb
  exact processCategories_sound h3

theorem match_skills_sound {oracle : RegexOracle} {prompt : String} {rules : Json}
    {ps : List Json} {res : List (String × Nat × Json)} {projS : List String}
    (h : match_skills oracle prompt rules ps = .ok (res, projS)) :
    ∀ n ∈ projS, (Json.str n) ∈ ps := by
  unfold match_skills at h
  simp only [except_bind_ok_iff] at h
  obtain ⟨skills, h1, items, h2, r0, h3, h⟩ := h
  obtain ⟨rs, pj⟩ := r0
  injection h with h'
  injection h' with ha hb
  subst hb
  exact processSkills_sound h3

-- === C7 ===

/-- C7: `has_project_matches` is true iff the project-matched-agents
subset or the project-matched-skills subset is non-empty, and every
recorded project match is indeed project-sourced (its name belongs to
the corresponding provenance set). -/
theorem has_project_matches_iff (oracle : RegexOracle) (prompt : String)
    (rules : Json) (project_agents project_skills : List Json) (r : MatchResult)
    (h : analyze_prompt oracle prompt rules project_agents project_skills = .ok r) :
    (r.has_project_matches = true ↔
      (r.project_matched_agents ≠ [] ∨ r.project_matched_skills ≠ [])) ∧
    (∀ n ∈ r.project_matched_agents, n ∈ project_agents) ∧
    (∀ n ∈ r.project_matched_skills, (Json.str n) ∈ project_skills) := by
  unfold analyze_prompt at h
  simp only [except_bind_ok_iff] at h
  obtain ⟨cm, h1, ex, h2, sm, h3, ua, h4, h⟩ := h
  obtain ⟨cres, cproj⟩ := cm
  obtain ⟨sres, sproj⟩ := sm
  injection h with h'
  subst h'
  refine ⟨?_, ?_, ?_⟩
  · simp only [Bool.not_eq_eq_eq_not, Bool.not_true, Bool.and_eq_false_imp]
    constructor
    · intro hb
      by_cases hc : cproj = [] <;> by_cases hs : sproj = [] <;>
        simp_all [List.isEmpty_iff]
    · intro hb
      rcases hb with hb | hb <;> simp_all [List.isEmpty_iff]
  · exact match_agent_categories_sound h1
  · exact match_skills_sound h3

/-- Witness for C7: a matched project-sourced agent flips the flag. -/
theorem has_project_matches_iff_witness :
    (c7_result.has_project_matches = true ↔
      (c7_result.project_matched_agents ≠ [] ∨
        c7_result.project_matched_skills ≠ [])) ∧
    (∀ n ∈ c7_result.project_matched_agents, n ∈ [Json.str "frontend-developer"]) ∧
    (∀ n ∈ c7_result.project_matched_skills, (Json.str n) ∈ ([] : List Json)) :=
  has_project_matches_iff no_regex_oracle "implement the feature" c7_rules
    [.str "frontend-developer"] [] c7_result (by decide)

theorem categoryErrors_nil_iff (n : String) (cd : Json) :
    categoryErrors n cd = [] ↔ WellFormedCategory cd := by
  cases cd with
  | obj kvs =>
    rcases h1 : Json.lookup kvs "triggers" with _ | t
    · simp [categoryErrors, WellFormedCategory, h1]
    · rcases h2 : Json.lookup kvs "agents" with _ | a
      · cases t <;> simp [categoryErrors, WellFormedCategory, h1, h2]
      · cases t <;> cases a <;> simp [categoryErrors, WellFormedCategory, h1, h2]
  | null => simp [categoryErrors, WellFormedCategory]
  | bool b => simp [categoryErrors, WellFormedCategory]
  | num m => simp [categoryErrors, WellFormedCategory]
  | str s => simp [categoryErrors, WellFormedCategory]
  | arr xs => simp [categoryErrors, WellFormedCategory]

theorem skillErrors_nil_iff (n : String) (sd : Json) :
    skillErrors n sd = [] ↔ WellFormedSkill sd := by
  cases sd with
  | obj kvs =>
    rcases h1 : Json.lookup kvs "triggers" with _ | t
    · simp [skillErrors, WellFormedSkill, h1]
    · cases t <;> simp [skillErrors, WellFormedSkill, h1]
  | null => simp [skillErrors, WellFormedSkill]
  | bool b => simp [skillErrors, WellFormedSkill]
  | num m => simp [skillErrors, WellFormedSkill]
  | str s => simp [skillErrors, WellFormedSkill]
  | arr xs => simp [skillErrors, WellFormedSkill]

theorem categoryErrors_length (n : String) (cd : Json) :
    (categoryErrors n cd).length = categoryViolations cd := by
  cases cd with
  | obj kvs =>
    rcases h1 : Json.lookup kvs "triggers" with _ | t
    · rcases h2 : Json.lookup kvs "agents" with _ | a
      · simp [categoryErrors, categoryViolations, h1, h2]
      · cases a <;> simp [categoryErrors, categoryViolations, h1, h2]
    · rcases h2 : Json.lookup kvs "agents" with _ | a
      · cases t <;> simp [categoryErrors, categoryViolations, h1, h2]
      · cases t <;> cases a <;> simp [categoryErrors, categoryViolations, h1, h2]
  | null => simp [categoryErrors, categoryViolations]
  | bool b => simp [categoryErrors, categoryViolations]
  | num m => simp [categoryErrors, categoryViolations]
  | str s => simp [categoryErrors, categoryViolations]
  | arr xs => simp [categoryErrors, categoryViolations]

theorem skillErrors_length (n : String) (sd : Json) :
    (skillErrors n sd).length = skillViolations sd := by
  cases sd with
  | obj kvs =>
    rcases h1 : Json.lookup kvs "triggers" with _ | t
    · simp [skillErrors, skillViolations, h1]
    · cases t <;> simp [skillErrors, skillViolations, h1]
  | null => simp [skillErrors, skillViolations]
  | bool b => simp [skillErrors, skillViolations]
  | num m => simp [skillErrors, skillViolations]
  | str s => simp [skillErrors, skillViolations]
  | arr xs => simp [skillErrors, skillViolations]

-- === C3 ===

/-- C3: structural validation of the global rules document returns
`(is_valid, errors)` where validity holds exactly when the errors list
is empty, validity holds exactly when the document is structurally
well-formed (the three required top-level mappings, each category a
mapping with `triggers` and `agents` sequences), and the number of
collected messages equals the number of distinct violations (no
short-circuiting). -/
theorem validate_rules_structure_spec (rules : Json) :
    ((validate_rules_structure rules).1 = true ↔
      (validate_rules_structure rules).2 = []) ∧
    ((validate_rules_structure rules).1 = true ↔ WellFormedRules rules) ∧
    (validate_rules_structure rules).2.length = countViolations rules := by
  have hiff : structureErrors rules = [] ↔ WellFormedRules rules := by
    unfold structureErrors WellFormedRules
    rw [List.append_eq_nil, List.append_eq_nil, and_assoc]
    refine and_congr ?_ (and_congr ?_ ?_)
    · rcases ha : topGet rules "agent_categories" with _ | va
      · simp
      · cases va <;> simp [List.flatten_eq_nil_iff, categoryErrors_nil_iff] <;>
          exact ⟨fun h a b hab => (categoryErrors_nil_iff a b).mp (h _ a b hab rfl),
                 fun h l a b hab he =>
                   he ▸ ((categoryErrors_nil_iff a b).mpr (h a b hab))⟩
    · rcases hs : topGet rules "skills" with _ | vs
      · simp
      · cases vs <;> simp [List.flatten_eq_nil_iff, skillErrors_nil_iff] <;>
          exact ⟨fun h a b hab => (skillErrors_nil_iff a b).mp (h _ a b hab rfl),
                 fun h l a b hab he =>
                   he ▸ ((skillErrors_nil_iff a b).mpr (h a b hab))⟩
    · rcases hi : topGet rules "injection_templates" with _ | vi
      · simp
      · cases vi <;> simp
  have hlen : (structureErrors rules).length = countViolations rules := by
    unfold structureErrors countViolations
    rw [List.length_append, List.length_append]
    refine congr (congrArg HAdd.hAdd (congr (congrArg HAdd.hAdd ?_) ?_)) ?_
    · rcases ha : topGet rules "agent_categories" with _ | va
      · simp
      · cases va <;>
          simp [List.length_flatten, List.map_map, Function.comp,
            categoryErrors_length] <;>
          exact congrArg List.sum (List.map_congr_left
            (fun kv _ => by simp [Function.comp, categoryErrors_length]))
    · rcases hs : topGet rules "skills" with _ | vs
      · simp
      · cases vs <;>
          simp [List.length_flatten, List.map_map, Function.comp,
            skillErrors_length] <;>
          exact congrArg List.sum (List.map_congr_left
            (fun kv _ => by simp [Function.comp, skillErrors_length]))
    · rcases hi : topGet rules "injection_templates" with _ | vi
      · simp
      · cases vi <;> simp
  refine ⟨by simp [validate_rules_structure, List.isEmpty_iff], ?_, hlen⟩
  simpa [validate_rules_structure, List.isEmpty_iff] using hiff

theorem lookup_setField_self (kvs : List (String × Json)) (k : String) (v : Json) :
    Json.lookup (Json.setField kvs k v) k = some v := by
  induction kvs with
  | nil => simp [Json.setField, Json.lookup]
  | cons kv rest ih =>
    obtain ⟨k', v'⟩ := kv
    by_cases h : k' = k
    · simp [Json.setField, Json.lookup, h]
    · simp [Json.setField, Json.lookup, h, ih]

theorem lookup_setField_ne (kvs : List (String × Json)) (k : String) (v : Json)
    (k' : String) (h : k' ≠ k) :
    Json.lookup (Json.setField kvs k v) k' = Json.lookup kvs k' := by
  induction kvs with
  | nil => simp [Json.setField, Json.lookup, Ne.symm h]
  | cons kv rest ih =>
    obtain ⟨k0, v0⟩ := kv
    by_cases h0 : k0 = k
    · subst h0
      simp [Json.setField, Json.lookup, Ne.symm h]
    · simp only [Json.setField, if_neg h0, Json.lookup]
      by_cases h1 : k0 = k'
      · simp [h1]
      · simp [h1, ih]

theorem mergeCustomAgentsCore_mono (cas : List (String × Json)) :
    ∀ (agents triggers pa : List Json),
      (∀ x ∈ agents, x ∈ (mergeCustomAgentsCore agents triggers pa cas).1) ∧
      (∀ x ∈ triggers, x ∈ (mergeCustomAgentsCore agents triggers pa cas).2.1) ∧
      (∀ x ∈ pa, x ∈ (mergeCustomAgentsCore agents triggers pa cas).2.2) := by
  induction cas with
  | nil =>
    intro agents triggers pa
    simp [mergeCustomAgentsCore]
  | cons hd rest ih =>
    intro agents triggers pa
    obtain ⟨name, data⟩ := hd
    cases data with
    | obj dk =>
      rcases hlk : Json.lookup dk "triggers" with _ | v
      · simp only [mergeCustomAgentsCore, hlk]
        refine ⟨fun x hx => (ih _ _ _).1 x (by simp [hx]),
                fun x hx => (ih _ _ _).2.1 x hx,
                fun x hx => (ih _ _ _).2.2 x ?_⟩
        by_cases hc : (Json.str name) ∈ pa <;> simp [hc, hx]
      · cases v <;>
          simp only [mergeCustomAgentsCore, hlk] <;>
          refine ⟨fun x hx => (ih _ _ _).1 x (by simp [hx]),
                  fun x hx => (ih _ _ _).2.1 x (by simp [hx]),
                  fun x hx => (ih _ _ _).2.2 x ?_⟩ <;>
          by_cases hc : (Json.str name) ∈ pa <;> simp [hc, hx]
    | null =>
      simp only [mergeCustomAgentsCore]
      exact ih agents triggers pa
    | bool b =>
      simp only [mergeCustomAgentsCore]
      exact ih agents triggers pa
    | num n =>
      simp only [mergeCustomAgentsCore]
      exact ih agents triggers pa
    | str s =>
      simp only [mergeCustomAgentsCore]
      exact ih agents triggers pa
    | arr xs =>
      simp only [mergeCustomAgentsCore]
      exact ih agents triggers pa

theorem mergeCustomAgentsCore_insert (cas : List (String × Json)) :
    ∀ (agents triggers pa : List Json) (name : String) (dk : List (String × Json)),
      (name, Json.obj dk) ∈ cas →
      customAgentDescriptor name dk ∈ (mergeCustomAgentsCore agents triggers pa cas).1 ∧
      (Json.str name) ∈ (mergeCustomAgentsCore agents triggers pa cas).2.2 ∧
      (∀ ts, Json.lookup dk "triggers" = some (.arr ts) →
        ∀ t ∈ ts, t ∈ (mergeCustomAgentsCore agents triggers pa cas).2.1) := by
  induction cas with
  | nil =>
    intro _ _ _ _ _ h
    simp at h
  | cons hd rest ih =>
    intro agents triggers pa name dk hmem
    rcases List.mem_cons.mp hmem with heq | hmem'
    · obtain ⟨n2, d2⟩ := hd
      injection heq with he1 he2
      subst he1
      subst he2
      refine ⟨?_, ?_, ?_⟩
      · rcases hlk : Json.lookup dk "triggers" with _ | v
        · simp only [mergeCustomAgentsCore, hlk]
          exact (mergeCustomAgentsCore_mono rest _ _ _).1 _ (by simp)
        · cases v <;> simp only [mergeCustomAgentsCore, hlk] <;>
            exact (mergeCustomAgentsCore_mono rest _ _ _).1 _ (by simp)
      · rcases hlk : Json.lookup dk "triggers" with _ | v
        · simp only [mergeCustomAgentsCore, hlk]
          apply (mergeCustomAgentsCore_mono rest _ _ _).2.2
          by_cases hc : (Json.str name) ∈ pa <;> simp [hc]
        · cases v <;> simp only [mergeCustomAgentsCore, hlk] <;>
            apply (mergeCustomAgentsCore_mono rest _ _ _).2.2 <;>
            (by_cases hc : (Json.str name) ∈ pa <;> simp [hc])
      · intro ts hts t ht
        simp only [mergeCustomAgentsCore, hts]
        exact (mergeCustomAgentsCore_mono rest _ _ _).2.1 _ (by simp [ht])
    · obtain ⟨n2, d2⟩ := hd
      cases d2 with
      | obj dk2 =>
        rcases hlk : Json.lookup dk2 "triggers" with _ | v
        · simp only [mergeCustomAgentsCore, hlk]
          exact ih _ _ _ _ _ hmem'
        · cases v <;> simp only [mergeCustomAgentsCore, hlk] <;>
            exact ih _ _ _ _ _ hmem'
      | null =>
        simp only [mergeCustomAgentsCore]
        exact ih _ _ _ _ _ hmem'
      | bool b =>
        simp only [mergeCustomAgentsCore]
        exact ih _ _ _ _ _ hmem'
      | num n =>
        simp only [mergeCustomAgentsCore]
        exact ih _ _ _ _ _ hmem'
      | str s =>
        simp only [mergeCustomAgentsCore]
        exact ih _ _ _ _ _ hmem'
      | arr xs =>
        simp only [mergeCustomAgentsCore]
        exact ih _ _ _ _ _ hmem'

-- === C4 ===

/-- C4: when the merged rule set contains the catch-all category, the
custom-agents merge appends to it an AgentDescriptor built from each
well-formed custom agent's fields (purpose defaulting to the generic
placeholder, tools to an empty list), appends the agent's trigger
strings to the category's trigger list, and marks the agent's name as
project-sourced; when the catch-all category does not exist the custom
agents are silently dropped without error. -/
theorem merge_custom_agents_spec :
    (∀ (pa : List Json) (cas : List (String × Json))
       (mkvs ckvs ukvs : List (String × Json)) (ags trs : List Json),
       Json.lookup mkvs "agent_categories" = some (.obj ckvs) →
       Json.lookup ckvs utility_category = some (.obj ukvs) →
       Json.lookup ukvs "agents" = some (.arr ags) →
       Json.lookup ukvs "triggers" = some (.arr trs) →
       ∀ (name : String) (dk : List (String × Json)), (name, Json.obj dk) ∈ cas →
         customAgentDescriptor name dk
             ∈ utilityAgents (merge_custom_agents (.obj mkvs) pa cas).1 ∧
         (Json.str name) ∈ (merge_custom_agents (.obj mkvs) pa cas).2 ∧
         (∀ ts, Json.lookup dk "triggers" = some (.arr ts) →
            ∀ t ∈ ts, t ∈ utilityTriggers (merge_custom_agents (.obj mkvs) pa cas).1)) ∧
    (∀ (merged : Json) (pa : List Json) (cas : List (String × Json)),
       hasUtilityCategory merged = false →
       merge_custom_agents merged pa cas = (merged, pa)) := by
  constructor
  · intro pa cas mkvs ckvs ukvs ags trs hac hu hag htr name dk hmem
    have hagents :
        utilityAgents (merge_custom_agents (.obj mkvs) pa cas).1
          = (mergeCustomAgentsCore ags trs pa cas).1 := by
      simp only [merge_custom_agents, hac, hu, hag, htr, utilityAgents,
        lookup_setField_self]
      rw [lookup_setField_ne _ "triggers" _ "agents" (by decide),
        lookup_setField_self]
    have htriggers :
        utilityTriggers (merge_custom_agents (.obj mkvs) pa cas).1
          = (mergeCustomAgentsCore ags trs pa cas).2.1 := by
      simp only [merge_custom_agents, hac, hu, hag, htr, utilityTriggers,
        lookup_setField_self]
    have hpa :
        (merge_custom_agents (.obj mkvs) pa cas).2
          = (mergeCustomAgentsCore ags trs pa cas).2.2 := by
      simp only [merge_custom_agents, hac, hu, hag, htr]
    rw [hagents, htriggers, hpa]
    exact mergeCustomAgentsCore_insert cas ags trs pa name dk hmem
  · intro merged pa cas h
    cases merged with
    | obj mkvs =>
      simp only [hasUtilityCategory] at h
      simp only [merge_custom_agents]
      rcases hac : Json.lookup mkvs "agent_categories" with _ | va
      · simp [hac]
      · rw [hac] at h
        cases va <;> simp_all
        case obj ckvs =>
          rcases hu : Json.lookup ckvs utility_category with _ | vu
          · simp [hu]
          · rw [hu] at h
            cases vu <;> simp_all
    | null => simp [merge_custom_agents]
    | bool b => simp [merge_custom_agents]
    | num n => simp [merge_custom_agents]
    | str s => simp [merge_custom_agents]
    | arr xs => simp [merge_custom_agents]

/-- Witness for C4 on the test suite's example custom agent. -/
theorem merge_custom_agents_spec_witness :
    (customAgentDescriptor "my-custom-agent"
        [("description", .str "Custom project automation"),
         ("tools", .arr [.str "Read"]),
         ("triggers", .arr [.str "my-custom"])]
      ∈ utilityAgents
          (merge_custom_agents
            (.obj [("agent_categories",
                    .obj [("utility",
                           .obj [("triggers", .arr [.str "scaffold"]),
                                 ("agents", .arr [])])])])
            []
            [("my-custom-agent",
              .obj [("description", .str "Custom project automation"),
                    ("tools", .arr [.str "Read"]),
                    ("triggers", .arr [.str "my-custom"])])]).1) ∧
    (Json.str "my-custom-agent"
      ∈ (merge_custom_agents
            (.obj [("agent_categories",
                    .obj [("utility",
                           .obj [("triggers", .arr [.str "scaffold"]),
                                 ("agents", .arr [])])])])
            []
            [("my-custom-agent",
              .obj [("description", .str "Custom project automation"),
                    ("tools", .arr [.str "Read"]),
                    ("triggers", .arr [.str "my-custom"])])]).2) := by
  have h := (merge_custom_agents_spec.1 []
    [("my-custom-agent",
      .obj [("description", .str "Custom project automation"),
            ("tools", .arr [.str "Read"]),
            ("triggers", .arr [.str "my-custom"])])]
    [("agent_categories",
      .obj [("utility",
             .obj [("triggers", .arr [.str "scaffold"]), ("agents", .arr [])])])]
    [("utility", .obj [("triggers", .arr [.str "scaffold"]), ("agents", .arr [])])]
    [("triggers", .arr [.str "scaffold"]), ("agents", .arr [])]
    [] [.str "scaffold"] rfl rfl rfl rfl "my-custom-agent"
    [("description", .str "Custom project automation"),
     ("tools", .arr [.str "Read"]),
     ("triggers", .arr [.str "my-custom"])] (by simp))
  exact ⟨h.1, h.2.1⟩

theorem setAdd_mono {s : List Json} {k : Json} {s' : List Json}
    (h : Json.setAdd s k = .ok s') : ∀ x ∈ s, x ∈ s' := by
  unfold Json.setAdd at h
  split at h
  · injection h with h'
    subst h'
    intro x hx
    by_cases hc : k ∈ s <;> simp [hc, hx]
  · exact Except.noConfusion h

theorem setAdd_self {s : List Json} {k : Json} {s' : List Json}
    (h : Json.setAdd s k = .ok s') : k ∈ s' := by
  unfold Json.setAdd at h
  split at h
  · injection h with h'
    subst h'
    by_cases hc : k ∈ s <;> simp [hc]
  · exact Except.noConfusion h

theorem updateSet_mono : ∀ {xs : List Json} {s out : List Json},
    updateSet s xs = .ok out → ∀ x ∈ s, x ∈ out := by
  intro xs
  induction xs with
  | nil =>
    intro s out h
    unfold updateSet at h
    cases h
    exact fun x hx => hx
  | cons y rest ih =>
    intro s out h
    unfold updateSet at h
    simp only [except_bind_ok_iff] at h
    obtain ⟨s1, h1, h2⟩ := h
    exact fun x hx => ih h2 x (setAdd_mono h1 x hx)

theorem updateSet_mem : ∀ {xs : List Json} {s out : List Json},
    updateSet s xs = .ok out → ∀ x ∈ xs, x ∈ out := by
  intro xs
  induction xs with
  | nil =>
    intro s out h x hx
    simp at hx
  | cons y rest ih =>
    intro s out h x hx
    unfold updateSet at h
    simp only [except_bind_ok_iff] at h
    obtain ⟨s1, h1, h2⟩ := h
    rcases List.mem_cons.mp hx with hx | hx
    · subst hx
      exact updateSet_mono h2 x (setAdd_self h1)
    · exact ih h2 x hx

theorem mergeProjectContextItems_mono :
    ∀ {items : List (String × Json)} {s out : List Json},
      mergeProjectContextItems s items = .ok out → ∀ x ∈ s, x ∈ out := by
  intro items
  induction items with
  | nil =>
    intro s out h
    unfold mergeProjectContextItems at h
    cases h
    exact fun x hx => hx
  | cons it rest ih =>
    intro s out h
    obtain ⟨k, v⟩ := it
    unfold mergeProjectContextItems at h
    cases v with
    | arr xs =>
      simp only [except_bind_ok_iff] at h
      obtain ⟨s1, h1, h2⟩ := h
      exact fun x hx => ih h2 x (updateSet_mono h1 x hx)
    | null =>
      simp only [except_bind_ok_iff, except_pure_eq, Except.ok.injEq,
        exists_eq_left'] at h
      exact ih h
    | bool b =>
      simp only [except_bind_ok_iff, except_pure_eq, Except.ok.injEq,
        exists_eq_left'] at h
      exact ih h
    | num n =>
      simp only [except_bind_ok_iff, except_pure_eq, Except.ok.injEq,
        exists_eq_left'] at h
      exact ih h
    | str s2 =>
      simp only [except_bind_ok_iff, except_pure_eq, Except.ok.injEq,
        exists_eq_left'] at h
      exact ih h
    | obj kvs =>
      simp only [except_bind_ok_iff, except_pure_eq, Except.ok.injEq,
        exists_eq_left'] at h
      exact ih h

theorem mergeProjectContextItems_mem :
    ∀ {items : List (String × Json)} {s out : List Json}
      {k : String} {xs : List Json},
      mergeProjectContextItems s items = .ok out → (k, Json.arr xs) ∈ items →
      ∀ x ∈ xs, x ∈ out := by
  intro items
  induction items with
  | nil =>
    intro s out k xs h hmem
    simp at hmem
  | cons it rest ih =>
    intro s out k xs h hmem
    obtain ⟨k2, v2⟩ := it
    rcases List.mem_cons.mp hmem with heq | hmem2
    · injection heq with he1 he2
      subst he1
      subst he2
      unfold mergeProjectContextItems at h
      simp only [except_bind_ok_iff] at h
      obtain ⟨s1, h1, h2⟩ := h
      intro x hx
      exact mergeProjectContextItems_mono h2 x (updateSet_mem h1 x hx)
    · unfold mergeProjectContextItems at h
      cases v2 with
      | arr ys =>
        simp only [except_bind_ok_iff] at h
        obtain ⟨s1, h1, h2⟩ := h
        exact ih h2 hmem2
      | null =>
        simp only [except_bind_ok_iff, except_pure_eq, Except.ok.injEq,
          exists_eq_left'] at h
        exact ih h hmem2
      | bool b =>
        simp only [except_bind_ok_iff, except_pure_eq, Except.ok.injEq,
          exists_eq_left'] at h
        exact ih h hmem2
      | num n =>
        simp only [except_bind_ok_iff, except_pure_eq, Except.ok.injEq,
          exists_eq_left'] at h
        exact ih h hmem2
      | str s2 =>
        simp only [except_bind_ok_iff, except_pure_eq, Except.ok.injEq,
          exists_eq_left'] at h
        exact ih h hmem2
      | obj kvs =>
        simp only [except_bind_ok_iff, except_pure_eq, Except.ok.injEq,
          exists_eq_left'] at h
        exact ih h hmem2

theorem mergeSkillsItems_ps_mono :
    ∀ {items : List (String × Json)} {m : Json} {ps : List Json}
      {m' : Json} {ps' : List Json},
      mergeSkillsItems m ps items = .ok (m', ps') → ∀ x ∈ ps, x ∈ ps' := by
  intro items
  induction items with
  | nil =>
    intro m ps m' ps' h
    unfold mergeSkillsItems at h
    cases h
    exact fun x hx => hx
  | cons it rest ih =>
    intro m ps m' ps' h
    obtain ⟨skill_name, skill_data⟩ := it
    unfold mergeSkillsItems at h
    simp only [except_bind_ok_iff] at h
    obtain ⟨sks, h1, isIn, h2, h⟩ := h
    by_cases hin : isIn = true
    · subst hin
      rw [if_pos rfl] at h
      simp only [except_bind_ok_iff] at h
      obtain ⟨sk, h3, entry, h4, existing, h5, nt, h6, comb, h7, entry2, h8,
        sk2, h9, m1, h10, ps1, h11, h12⟩ := h
      exact fun x hx => ih h12 x (setAdd_mono h11 x hx)
    · rw [Bool.not_eq_true] at hin
      subst hin
      rw [if_neg (by simp)] at h
      simp only [except_bind_ok_iff] at h
      obtain ⟨sk, h3, sk2, h4, m1, h5, ps1, h6, h7⟩ := h
      exact fun x hx => ih h7 x (setAdd_mono h6 x hx)

theorem mergeSkillMappingsInner_ps_mono :
    ∀ {sl : List Json} {m : Json} {ps : List Json} {kw : String}
      {m' : Json} {ps' : List Json},
      mergeSkillMappingsInner m ps kw sl = .ok (m', ps') → ∀ x ∈ ps, x ∈ ps' := by
  intro sl
  induction sl with
  | nil =>
    intro m ps kw m' ps' h
    unfold mergeSkillMappingsInner at h
    cases h
    exact fun x hx => hx
  | cons sn rest ih =>
    intro m ps kw m' ps' h
    unfold mergeSkillMappingsInner at h
    simp only [except_bind_ok_iff] at h
    obtain ⟨sks, h1, isIn, h2, h⟩ := h
    by_cases hin : isIn = true
    · subst hin
      rw [if_pos rfl] at h
      cases sn with
      | null =>
        simp only [except_bind_error] at h
        exact Except.noConfusion h
      | bool b =>
        simp only [except_bind_error] at h
        exact Except.noConfusion h
      | num n =>
        simp only [except_bind_error] at h
        exact Except.noConfusion h
      | arr xs =>
        simp only [except_bind_error] at h
        exact Except.noConfusion h
      | obj kvs =>
        simp only [except_bind_error] at h
        exact Except.noConfusion h
      | str s =>
        simp only [except_bind_ok_iff, except_pure_eq, Except.ok.injEq,
          exists_eq_left'] at h
        obtain ⟨sk, h4, entry, h5, existing, h6, kwIn, h7, h⟩ := h
        by_cases hkw : kwIn = true
        · subst hkw
          rw [if_pos rfl] at h
          simp only [except_bind_ok_iff, except_pure_eq, Except.ok.injEq,
            exists_eq_left'] at h
          obtain ⟨ps1, h8, h9⟩ := h
          exact fun x hx => ih h9 x (setAdd_mono h8 x hx)
        · rw [Bool.not_eq_true] at hkw
          subst hkw
          rw [if_neg (by simp)] at h
          simp only [except_bind_ok_iff] at h
          obtain ⟨tr, h8, h⟩ := h
          cases tr with
          | arr xs =>
            simp only [except_bind_ok_iff] at h
            obtain ⟨entry2, h9, sk2, h10, m1, h11, ps1, h12, h13⟩ := h
            exact fun x hx => ih h13 x (setAdd_mono h12 x hx)
          | null =>
            simp only [except_bind_error] at h
            exact Except.noConfusion h
          | bool b =>
            simp only [except_bind_error] at h
            exact Except.noConfusion h
          | num n =>
            simp only [except_bind_error] at h
            exact Except.noConfusion h
          | str s2 =>
            simp only [except_bind_error] at h
            exact Except.noConfusion h
          | obj kvs =>
            simp only [except_bind_error] at h
            exact Except.noConfusion h
    · rw [Bool.not_eq_true] at hin
      subst hin
      rw [if_neg (by simp)] at h
      exact fun x hx => ih h x hx

theorem mergeSkillMappingsItems_ps_mono :
    ∀ {items : List (String × Json)} {m : Json} {ps : List Json}
      {m' : Json} {ps' : List Json},
      mergeSkillMappingsItems m ps items = .ok (m', ps') → ∀ x ∈ ps, x ∈ ps' := by
  intro items
  induction items with
  | nil =>
    intro m ps m' ps' h
    unfold mergeSkillMappingsItems at h
    cases h
    exact fun x hx => hx
  | cons it rest ih =>
    intro m ps m' ps' h
    obtain ⟨kw, skills⟩ := it
    unfold mergeSkillMappingsItems at h
    simp only [except_bind_ok_iff] at h
    obtain ⟨sl, h1, res, h2, h3⟩ := h
    obtain ⟨m1, ps1⟩ := res
    exact fun x hx => ih h3 x (mergeSkillMappingsInner_ps_mono h2 x hx)

theorem lookup_any {kvs : List (String × Json)} {key : String} {v : Json}
    (h : Json.lookup kvs key = some v) :
    (kvs.any (fun kv => kv.1 = key)) = true := by
  induction kvs with
  | nil => simp [Json.lookup] at h
  | cons kv rest ih =>
    obtain ⟨k0, v0⟩ := kv
    by_cases h0 : k0 = key
    · simp [h0]
    · simp only [Json.lookup, if_neg h0] at h
      simp [h0, ih h]

theorem lookup_ne_nil {kvs : List (String × Json)} {key : String} {v : Json}
    (h : Json.lookup kvs key = some v) : kvs ≠ [] := by
  intro he
  subst he
  simp [Json.lookup] at h

theorem insertByCountDesc_mem (x y : String × Nat × Json)
    (l : List (String × Nat × Json)) :
    y ∈ insertByCountDesc x l ↔ y = x ∨ y ∈ l := by
  induction l with
  | nil => simp [insertByCountDesc]
  | cons z rest ih =>
    unfold insertByCountDesc
    by_cases hc : z.2.1 ≥ x.2.1
    · rw [if_pos hc]
      simp only [List.mem_cons, ih]
      tauto
    · rw [if_neg hc]
      simp only [List.mem_cons]

theorem sortByCountDesc_mem {l : List (String × Nat × Json)}
    {x : String × Nat × Json} (h : x ∈ sortByCountDesc l) : x ∈ l := by
  unfold sortByCountDesc at h
  suffices hgen : ∀ (l' : List (String × Nat × Json)) (acc : List (String × Nat × Json)),
      x ∈ l'.foldl (fun acc y => insertByCountDesc y acc) acc → x ∈ acc ∨ x ∈ l' by
    rcases hgen l [] h with hx | hx
    · simp at hx
    · exact hx
  intro l'
  induction l' with
  | nil =>
    intro acc hx
    exact Or.inl hx
  | cons y rest ih =>
    intro acc hx
    simp only [List.foldl_cons] at hx
    rcases ih (insertByCountDesc y acc) hx with hx | hx
    · rcases (insertByCountDesc_mem y x acc).mp hx with hx | hx
      · exact Or.inr (by simp [hx])
      · exact Or.inl hx
    · exact Or.inr (by simp [hx])

theorem processSkills_proj {oracle : RegexOracle} {pl : String} {ps : List Json} :
    ∀ {items : List (String × Json)} {res : List (String × Nat × Json)}
      {projS : List String},
      processSkills oracle pl ps items = .ok (res, projS) →
      ∀ name cnt purpose, (name, cnt, purpose) ∈ res →
        (Json.str name) ∈ ps → name ∈ projS := by
  intro items
  induction items with
  | nil =>
    intro res projS h name cnt purpose hmem hps
    unfold processSkills at h
    cases h
    simp at hmem
  | cons it rest ih =>
    intro res projS h name cnt purpose hmem hps
    obtain ⟨skill_name, skill_data⟩ := it
    unfold processSkills at h
    simp only [except_bind_ok_iff] at h
    obtain ⟨triggers, h1, patterns, h2, purpose2, h3, c1, h4, c2, h5, tail, h6, h⟩ := h
    injection h with h'
    injection h' with ha hb
    subst ha
    subst hb
    rcases List.mem_append.mp hmem with hm | hm
    · by_cases hc : c1 + c2 > 0
      · rw [if_pos hc] at hm ⊢
        simp only [List.mem_singleton] at hm
        injection hm with hn hrest
        subst hn
        apply List.mem_append_left
        simp [hps]
      · rw [if_neg hc] at hm
        simp at hm
    · exact List.mem_append_right _ (ih h6 name cnt purpose hm hps)

theorem match_skills_proj {oracle : RegexOracle} {prompt : String} {rules : Json}
    {ps : List Json} {res : List (String × Nat × Json)} {projS : List String}
    (h : match_skills oracle prompt rules ps = .ok (res, projS)) :
    ∀ name cnt purpose, (name, cnt, purpose) ∈ res →
      (Json.str name) ∈ ps → name ∈ projS := by
  unfold match_skills at h
  simp only [except_bind_ok_iff] at h
  obtain ⟨skills, h1, items, h2, r0, h3, h⟩ := h
  obtain ⟨rs, pj⟩ := r0
  injection h with h'
  injection h' with ha hb
  subst ha
  subst hb
  intro name cnt purpose hmem hps
  exact processSkills_proj h3 name cnt purpose (sortByCountDesc_mem hmem) hps

-- === C10 ===

/-- C10: every string in a list value of a project `project_context`
mapping is added to the project-skill name set during merging (though no
trigger or skill definition is added for it), and consequently a
globally-defined skill of that name is reported project-sourced whenever
it matches. -/
theorem project_context_marks_skills (g : Json) (pkvs pckvs : List (String × Json))
    (k : String) (xs : List Json) (s : String) (m : Json) (pa ps : List Json)
    (hpc : Json.lookup pkvs "project_context" = some (.obj pckvs))
    (hk : (k, Json.arr xs) ∈ pckvs)
    (hs : (Json.str s) ∈ xs)
    (hm : merge_rules g (some (.obj pkvs)) = .ok (m, pa, ps)) :
    (Json.str s) ∈ ps ∧
    (∀ (oracle : RegexOracle) (prompt : String)
       (results : List (String × Nat × Json)) (projSkills : List String)
       (cnt : Nat) (purpose : Json),
       match_skills oracle prompt m ps = .ok (results, projSkills) →
       (s, cnt, purpose) ∈ results → s ∈ projSkills) := by
  have hps : (Json.str s) ∈ ps := by
    unfold merge_rules at hm
    have htru : (Json.obj pkvs).truthy = true := by
      cases pkvs with
      | nil => simp [Json.lookup] at hpc
      | cons a b => simp [Json.truthy]
    simp only [htru, Bool.not_true, Bool.false_eq_true, if_false] at hm
    simp only [except_bind_ok_iff] at hm
    obtain ⟨ps0, hps0, hasT, hT, hm⟩ := hm
    have hs0 : (Json.str s) ∈ ps0 := by
      unfold mergeProjectContext at hps0
      have hcont : Json.pyContains (.obj pkvs) "project_context" = .ok true := by
        simp [Json.pyContains, lookup_any hpc]
      rw [hcont] at hps0
      simp only [except_bind_ok_iff] at hps0
      obtain ⟨hasIt, hIt, hps0⟩ := hps0
      injection hIt with hIt'
      subst hIt'
      rw [if_pos rfl] at hps0
      have hsub : Json.pySub (.obj pkvs) "project_context" = .ok (.obj pckvs) := by
        simp [Json.pySub, hpc]
      rw [hsub] at hps0
      simp only [except_bind_ok_iff] at hps0
      obtain ⟨pc, hpc2, items, hit2, hps0⟩ := hps0
      injection hpc2 with hpc2'
      subst hpc2'
      injection hit2 with hit2'
      subst hit2'
      exact mergeProjectContextItems_mem hps0 hk _ hs
    -- thread ps0 through the triggers / skills / skill_mappings steps
    have hcur0 : (Json.str s) ∈ ps0 := hs0
    by_cases hT2 : hasT = true
    · subst hT2
      rw [if_pos rfl] at hm
      simp only [except_bind_ok, except_bind_ok_iff] at hm
      obtain ⟨t, ht1, titems, ht2, tRes, ht3, hm⟩ := hm
      obtain ⟨m1, pa1⟩ := tRes
      simp only [except_bind_ok, except_bind_ok_iff] at hm
      obtain ⟨hasS, hS1, hm⟩ := hm
      by_cases hS : hasS = true
      · subst hS
        rw [if_pos rfl] at hm
        simp only [except_bind_ok, except_bind_ok_iff] at hm
        obtain ⟨sj, hw1, sitems, hw2, sRes, hw3, hm⟩ := hm
        obtain ⟨m2, ps2⟩ := sRes
        have hcur : (Json.str s) ∈ ps2 := mergeSkillsItems_ps_mono hw3 _ hcur0
        simp only [except_bind_ok, except_bind_ok_iff] at hm
        obtain ⟨hasM, hM1, hm⟩ := hm
        by_cases hM : hasM = true
        · subst hM
          rw [if_pos rfl] at hm
          simp only [except_bind_ok, except_bind_ok_iff] at hm
          obtain ⟨mj, hq1, mitems, hq2, mRes, hq3, hm⟩ := hm
          obtain ⟨m3, ps3⟩ := mRes
          injection hm with hm2
          injection hm2 with hA hB
          injection hB with hB1 hB2
          subst hB2
          exact mergeSkillMappingsItems_ps_mono hq3 _ hcur
        · rw [Bool.not_eq_true] at hM
          subst hM
          rw [if_neg (by simp)] at hm
          injection hm with hm2
          injection hm2 with hA hB
          injection hB with hB1 hB2
          subst hB2
          exact hcur
      · rw [Bool.not_eq_true] at hS
        subst hS
        rw [if_neg (by simp)] at hm
        have hcur : (Json.str s) ∈ ps0 := hcur0
        simp only [except_bind_ok, except_bind_ok_iff] at hm
        obtain ⟨hasM, hM1, hm⟩ := hm
        by_cases hM : hasM = true
        · subst hM
          rw [if_pos rfl] at hm
          simp only [except_bind_ok, except_bind_ok_iff] at hm
          obtain ⟨mj, hq1, mitems, hq2, mRes, hq3, hm⟩ := hm
          obtain ⟨m3, ps3⟩ := mRes
          injection hm with hm2
          injection hm2 with hA hB
          injection hB with hB1 hB2
          subst hB2
          exact mergeSkillMappingsItems_ps_mono hq3 _ hcur
        · rw [Bool.not_eq_true] at hM
          subst hM
          rw [if_neg (by simp)] at hm
          injection hm with hm2
          injection hm2 with hA hB
          injection hB with hB1 hB2
          subst hB2
          exact hcur
    · rw [Bool.not_eq_true] at hT2
      subst hT2
      rw [if_neg (by simp)] at hm
      simp only [except_bind_ok, except_bind_ok_iff] at hm
      obtain ⟨hasS, hS1, hm⟩ := hm
      by_cases hS : hasS = true
      · subst hS
        rw [if_pos rfl] at hm
        simp only [except_bind_ok, except_bind_ok_iff] at hm
        obtain ⟨sj, hw1, sitems, hw2, sRes, hw3, hm⟩ := hm
        obtain ⟨m2, ps2⟩ := sRes
        have hcur : (Json.str s) ∈ ps2 := mergeSkillsItems_ps_mono hw3 _ hcur0
        simp only [except_bind_ok, except_bind_ok_iff] at hm
        obtain ⟨hasM, hM1, hm⟩ := hm
        by_cases hM : hasM = true
        · subst hM
          rw [if_pos rfl] at hm
          simp only [except_bind_ok, except_bind_ok_iff] at hm
          obtain ⟨mj, hq1, mitems, hq2, mRes, hq3, hm⟩ := hm
          obtain ⟨m3, ps3⟩ := mRes
          injection hm with hm2
          injection hm2 with hA hB
          injection hB with hB1 hB2
          subst hB2
          exact mergeSkillMappingsItems_ps_mono hq3 _ hcur
        · rw [Bool.not_eq_true] at hM
          subst hM
          rw [if_neg (by simp)] at hm
          injection hm with hm2
          injection hm2 with hA hB
          injection hB with hB1 hB2
          subst hB2
          exact hcur
      · rw [Bool.not_eq_true] at hS
        subst hS
        rw [if_neg (by simp)] at hm
        have hcur : (Json.str s) ∈ ps0 := hcur0
        simp only [except_bind_ok, except_bind_ok_iff] at hm
        obtain ⟨hasM, hM1, hm⟩ := hm
        by_cases hM : hasM = true
        · subst hM
          rw [if_pos rfl] at hm
          simp only [except_bind_ok, except_bind_ok_iff] at hm
          obtain ⟨mj, hq1, mitems, hq2, mRes, hq3, hm⟩ := hm
          obtain ⟨m3, ps3⟩ := mRes
          injection hm with hm2
          injection hm2 with hA hB
          injection hB with hB1 hB2
          subst hB2
          exact mergeSkillMappingsItems_ps_mono hq3 _ hcur
        · rw [Bool.not_eq_true] at hM
          subst hM
          rw [if_neg (by simp)] at hm
          injection hm with hm2
          injection hm2 with hA hB
          injection hB with hB1 hB2
          subst hB2
          exact hcur
  refine ⟨hps, ?_⟩
  intro oracle prompt results projSkills cnt purpose hms hmem
  exact match_skills_proj hms s cnt purpose hmem hps

/-- Witness for C10 on the fixture: `myskill` is named only in a
`project_context` list yet ends up project-sourced. -/
theorem project_context_marks_skills_witness :
    (Json.str "myskill") ∈ [Json.str "myskill"] ∧ "myskill" ∈ ["myskill"] := by
  have h := project_context_marks_skills c10_global c10_project_fields
      [("stack", Json.arr [Json.str "myskill"])] "stack" [Json.str "myskill"]
      "myskill" c10_global [] [Json.str "myskill"]
      (by decide) (by decide) (by decide) (by decide)
  exact ⟨h.1, h.2 no_regex_oracle "use mykey now"
      [("myskill", 1, Json.str "the skill")] ["myskill"] 1 (Json.str "the skill")
      (by decide) (by decide)⟩

theorem except_map_comp {ε α β γ : Type} (e : Except ε α) (f : α → β) (g : β → γ) :
    (e.map f).map g = e.map (fun a => g (f a)) := by
  cases e <;> simp [Except.map]

theorem pyFormatAux_nobrace (kvs : List (String × String)) :
    ∀ (cs rest : List Char), (∀ c ∈ cs, c ≠ lbrace ∧ c ≠ rbrace) →
      pyFormatAux kvs none (cs ++ rest)
        = (pyFormatAux kvs none rest).map (fun l => cs ++ l) := by
  intro cs
  induction cs with
  | nil =>
    intro rest hc
    cases h : pyFormatAux kvs none rest <;> simp [Except.map, h]
  | cons c cs' ih =>
    intro rest hc
    have hcb := hc c (by simp)
    rw [List.cons_append]
    rw [pyFormatAux.eq_def]
    simp only []
    rw [if_neg hcb.1, if_neg hcb.2]
    rw [ih rest (fun x hx => hc x (by simp [hx]))]
    rw [except_map_comp]
    rfl

theorem pyFormatAux_fieldmode (kvs : List (String × String)) :
    ∀ (cs : List Char) (acc rest : List Char), (∀ c ∈ cs, c ≠ rbrace) →
      pyFormatAux kvs (some acc) (cs ++ rbrace :: rest)
        = (match List.lookup (String.mk (acc.reverse ++ cs)) kvs with
           | some v => (pyFormatAux kvs none rest).map (fun l => v.data ++ l)
           | none => .error .keyError) := by
  intro cs
  induction cs with
  | nil =>
    intro acc rest hc
    simp only [List.nil_append]
    rw [pyFormatAux.eq_def]
    simp
  | cons c cs' ih =>
    intro acc rest hc
    have hcb := hc c (by simp)
    rw [List.cons_append]
    rw [pyFormatAux.eq_def]
    simp only []
    rw [if_neg hcb]
    rw [ih (c :: acc) rest (fun x hx => hc x (by simp [hx]))]
    simp

theorem pyFormatAux_field (kvs : List (String × String)) (key v : String)
    (hlk : List.lookup key kvs = some v)
    (hkey : ∀ c ∈ key.data, c ≠ lbrace ∧ c ≠ rbrace) (rest : List Char) :
    pyFormatAux kvs none (lbrace :: (key.data ++ rbrace :: rest))
      = (pyFormatAux kvs none rest).map (fun l => v.data ++ l) := by
  have hstep : pyFormatAux kvs none (lbrace :: (key.data ++ rbrace :: rest))
      = pyFormatAux kvs (some []) (key.data ++ rbrace :: rest) := by
    cases hk : key.data with
    | nil =>
      simp only [List.nil_append]
      rw [pyFormatAux.eq_def]
      simp only []
      rw [if_pos trivial]
      rw [if_neg (by decide : ¬ rbrace = lbrace)]
    | cons c cs' =>
      simp only [List.cons_append]
      rw [pyFormatAux.eq_def]
      simp only []
      rw [if_pos trivial]
      rw [if_neg ((hkey c (by simp [hk])).1)]
  rw [hstep, pyFormatAux_fieldmode kvs key.data [] rest (fun c hc => (hkey c hc).2)]
  simp only [List.reverse_nil, List.nil_append]
  have hmk : String.mk key.data = key := rfl
  rw [hmk, hlk]

theorem agentLines_mem {r : MatchResult} :
    ∀ {as : List Json} {ls : List String}, agentLines r as = .ok ls →
      ∀ a ∈ as, ∃ l ∈ ls, agentLine r a = .ok l := by
  intro as
  induction as with
  | nil =>
    intro ls h a ha
    simp at ha
  | cons b rest ih =>
    intro ls h a ha
    unfold agentLines at h
    simp only [except_bind_ok_iff] at h
    obtain ⟨l0, h1, more, h2, h⟩ := h
    injection h with h'
    subst h'
    rcases List.mem_cons.mp ha with ha | ha
    · subst ha
      exact ⟨l0, by simp, h1⟩
    · obtain ⟨l, hl, he⟩ := ih h2 a ha
      exact ⟨l, by simp [hl], he⟩

theorem agentLine_contains {r : MatchResult} {a : Json} {l : String} {s : String}
    (h : agentLine r a = .ok l)
    (hn : Json.pyGetD a "name" (.str "") = .ok (.str s)) :
    s.data <:+: l.data := by
  unfold agentLine at h
  rw [hn] at h
  simp only [except_bind_ok_iff, except_bind_ok] at h
  obtain ⟨purpose, h1, h⟩ := h
  by_cases hp : r.project_matched_agents.contains (.str s) = true
  · rw [if_pos hp] at h
    injection h with h'
    subst h'
    refine ⟨"  - ".data, (": " ++ pyStrOf purpose ++ " [PROJECT-SPECIFIC]").data, ?_⟩
    simp [String.data_append, pyStrOf]
  · rw [if_neg hp] at h
    injection h with h'
    subst h'
    refine ⟨"  - ".data, (": " ++ pyStrOf purpose).data, ?_⟩
    simp [String.data_append, pyStrOf]

theorem myJoin_infix (sep : String) :
    ∀ (ls : List String) (l : String), l ∈ ls → l.data <:+: (myJoin sep ls).data := by
  intro ls
  induction ls with
  | nil =>
    intro l hl
    simp at hl
  | cons x rest ih =>
    intro l hl
    rcases List.mem_cons.mp hl with hl | hl
    · subst hl
      cases rest with
      | nil => exact List.infix_refl _
      | cons y t =>
        unfold myJoin
        refine ⟨[], (sep ++ myJoin sep (y :: t)).data, ?_⟩
        simp [String.data_append]
    · cases rest with
      | nil => simp at hl
      | cons y t =>
        unfold myJoin
        have := ih l hl
        refine (this.trans ?_)
        refine ⟨(x ++ sep).data, [], ?_⟩
        simp [String.data_append]


theorem pyFormat_key_split (key : String)
    (hkey : ∀ c ∈ key.data, c ≠ lbrace ∧ c ≠ rbrace)
    (pre post : String)
    (hpre : ∀ c ∈ pre.data, c ≠ lbrace ∧ c ≠ rbrace)
    (hpost : ∀ c ∈ post.data, c ≠ lbrace ∧ c ≠ rbrace) (v : String) :
    pyFormat [(key, v)] (pre ++ ("\x7b" ++ key ++ "\x7d") ++ post)
      = .ok (pre ++ v ++ post) := by
  unfold pyFormat
  have h1 : ("\x7b" : String).data = [lbrace] := rfl
  have h2 : ("\x7d" : String).data = [rbrace] := rfl
  have hdata : (pre ++ ("\x7b" ++ key ++ "\x7d") ++ post).data
      = pre.data ++ (lbrace :: (key.data ++ (rbrace :: post.data))) := by
    simp [String.data_append, h1, h2]
    decide
  rw [hdata]
  rw [pyFormatAux_nobrace _ pre.data _ hpre]
  rw [pyFormatAux_field _ key v (by simp) hkey post.data]
  have hpost' : pyFormatAux [(key, v)] none post.data = .ok post.data := by
    have h0 : pyFormatAux [(key, v)] none ([] : List Char) = .ok [] := rfl
    have := pyFormatAux_nobrace [(key, v)] post.data [] hpost
    rw [h0] at this
    simpa [Except.map] using this
  rw [hpost']
  simp [Except.map]
  rw [← String.data_append, ← String.data_append]
  show pre ++ (v ++ post) = pre ++ v ++ post
  rw [String.append_assoc]

/-- The names rendered by the agent-line loop occur in any string of the
form `pre ++ join ++ post` built from those lines. -/
theorem hint_contains_names (r : MatchResult) (lines : List String)
    (pre post hint : String)
    (hL : agentLines r (r.matched_agents.take 3) = .ok lines)
    (hh : hint = pre ++ myJoin "\n" lines ++ post) :
    ∀ a ∈ r.matched_agents.take 3, ∀ s : String,
      Json.pyGetD a "name" (.str "") = .ok (.str s) → strContains hint s := by
  intro a ha s hs
  obtain ⟨l, hlmem, hline⟩ := agentLines_mem hL a ha
  have h5 : s.data <:+: l.data := agentLine_contains hline hs
  have h6 : l.data <:+: (myJoin "\n" lines).data := myJoin_infix "\n" lines l hlmem
  have h7 : (myJoin "\n" lines).data <:+: hint.data := by
    rw [hh]
    exact ⟨pre.data, post.data, by simp [String.data_append]⟩
  unfold strContains strContainsB
  exact hasSubList_of_sublist (h5.trans (h6.trans h7))


set_option maxRecDepth 40000 in
/-- C5 (amended): for every analyzer result with at least one matched agent
and no matched skills the scenario is AGENTS_ONLY, and under the built-in
`agents_only` templates the rendered hint contains the name of every agent
among the FIRST THREE matched agents: the hint builder truncates the
matched-agent list to three entries, so a fourth matched agent (the
analyzer caps the list at four) can be absent from the hint. -/
theorem agents_only_hint_first_three (oracle : RegexOracle) (prompt : String)
    (rules : Json) (pa ps : List Json) (r : MatchResult) (cfg : RouterConfig)
    (hint : String)
    (h1 : analyze_prompt oracle prompt rules pa ps = .ok r)
    (h2 : r.matched_agents ≠ [])
    (h3 : r.matched_skills = [])
    (ht : effective_agents_only_template r rules
            = .ok (.str default_agents_only_template) ∨
          effective_agents_only_template r rules
            = .ok (.str default_project_agents_only_template))
    (h4 : build_agents_only_hint r rules = .ok (.str hint)) :
    determine_scenario r cfg = Scenario.agents_only ∧
      ∀ a ∈ r.matched_agents.take 3, ∀ s : String,
        Json.pyGetD a "name" (.str "") = .ok (.str s) → strContains hint s := by
  constructor
  · have ha : 0 < r.matched_agents.length := List.length_pos.mpr h2
    simp [determine_scenario, h3, ha]
  · have ht' : ∃ D : String,
        (D = default_agents_only_template ∨
         D = default_project_agents_only_template) ∧
        effective_agents_only_template r rules = .ok (.str D) := by
      rcases ht with ht | ht
      · exact ⟨_, Or.inl rfl, ht⟩
      · exact ⟨_, Or.inr rfl, ht⟩
    obtain ⟨D, hD, ht⟩ := ht'
    unfold build_agents_only_hint at h4
    unfold effective_agents_only_template at ht
    simp only [except_bind_ok_iff] at h4 ht
    obtain ⟨templates, hT, h4⟩ := h4
    obtain ⟨templates2, hT2, ht⟩ := ht
    rw [hT] at hT2
    injection hT2 with e1
    subst e1
    have main : ∃ lines, agentLines r (r.matched_agents.take 3) = .ok lines ∧
        pyFormat [("agent_list", myJoin "\n" lines)] D = .ok hint := by
      rcases Bool.eq_false_or_eq_true r.has_project_matches with hpm | hpm
      · rw [hpm] at h4 ht
        simp only [reduceIte] at h4 ht
        simp only [except_bind_ok_iff] at h4 ht
        obtain ⟨fb, hfb, tc, hTC, lines, hL, tmpl, hTm, h4⟩ := h4
        obtain ⟨fb2, hfb2, tc2, hTC2, ht⟩ := ht
        rw [hfb] at hfb2
        injection hfb2 with e2
        subst e2
        rw [hTC] at hTC2
        injection hTC2 with e2
        subst e2
        rw [hTm] at ht
        injection ht with e3
        subst e3
        simp only [] at h4
        rw [except_map_ok_iff] at h4
        obtain ⟨hval, hpf, hinj⟩ := h4
        injection hinj with e4
        exact ⟨lines, hL, by rw [hpf, e4]⟩
      · rw [hpm] at h4 ht
        simp only [Bool.false_eq_true, if_false] at h4 ht
        simp only [except_bind_ok_iff] at h4 ht
        obtain ⟨tc, hTC, lines, hL, tmpl, hTm, h4⟩ := h4
        obtain ⟨tc2, hTC2, ht⟩ := ht
        rw [hTC] at hTC2
        injection hTC2 with e2
        subst e2
        rw [hTm] at ht
        injection ht with e3
        subst e3
        simp only [] at h4
        rw [except_map_ok_iff] at h4
        obtain ⟨hval, hpf, hinj⟩ := h4
        injection hinj with e4
        exact ⟨lines, hL, by rw [hpf, e4]⟩
    obtain ⟨lines, hL, hpf⟩ := main
    rcases hD with hD | hD
    · subst hD
      rw [show default_agents_only_template
            = default_agents_only_pre ++ ("\x7b" ++ "agent_list" ++ "\x7d")
                ++ default_agents_only_post from by decide] at hpf
      rw [pyFormat_key_split "agent_list" (by decide) _ _ (by decide) (by decide)
            (myJoin "\n" lines)] at hpf
      injection hpf with e5
      exact hint_contains_names r lines _ _ hint hL e5.symm
    · subst hD
      rw [show default_project_agents_only_template
            = default_project_agents_only_pre ++ ("\x7b" ++ "agent_list" ++ "\x7d")
                ++ default_project_agents_only_post from by decide] at hpf
      rw [pyFormat_key_split "agent_list" (by decide) _ _ (by decide) (by decide)
            (myJoin "\n" lines)] at hpf
      injection hpf with e5
      exact hint_contains_names r lines _ _ hint hL e5.symm

set_option maxRecDepth 40000 in
/-- Witness for the amended C5 theorem on the single-agent fixture: the
prompt "implement the feature" matches the one development agent and the
rendered hint names `frontend-developer`. -/
theorem agents_only_hint_first_three_witness :
    determine_scenario c5w_result test_config = Scenario.agents_only ∧
      strContains c5w_hint "frontend-developer" :=
  ⟨(agents_only_hint_first_three no_regex_oracle "implement the feature" c5w_rules
      [] [] c5w_result test_config c5w_hint (by decide) (by decide) (by decide)
      (Or.inl (by decide)) (by decide)).1,
   (agents_only_hint_first_three no_regex_oracle "implement the feature" c5w_rules
      [] [] c5w_result test_config c5w_hint (by decide) (by decide) (by decide)
      (Or.inl (by decide)) (by decide)).2
     (Json.obj [("name", .str "frontend-developer"), ("purpose", .str "UI development")])
     (by decide) "frontend-developer" (by decide)⟩

set_option maxRecDepth 40000 in
/-- C5 counterexample: on the four-agent fixture the prompt "alpha beta"
matches a trigger in each of the two categories and no skill trigger or
pattern; the scenario is AGENTS_ONLY and `agentfour` is among the matched
agents, the hint builds without an exception, yet the rendered hint does
not contain "agentfour" — the builder renders only the first three
matched agents, refuting the claim that every matched agent's name
appears. -/
theorem agents_only_hint_counterexample :
    analyze_prompt no_regex_oracle "alpha beta" c5_rules [] [] = .ok c5_result ∧
    c5_result.matched_skills = [] ∧
    determine_scenario c5_result test_config = Scenario.agents_only ∧
    (Json.obj [("name", .str "agentfour"), ("purpose", .str "fourth one")])
        ∈ c5_result.matched_agents ∧
    build_agents_only_hint c5_result c5_rules = .ok (.str c5_hint) ∧
    ¬ strContains c5_hint "agentfour" :=
  ⟨by decide, by decide, by decide, by decide, by decide, by decide⟩

theorem build_output_shape {result : MatchResult} {rules : Json}
    {config : RouterConfig} {out : Json}
    (h : build_output result rules config = .ok out) :
    ∃ hint, out = output_with_context hint := by
  unfold build_output at h
  simp only [except_bind_ok_iff] at h
  obtain ⟨hint, h1, len, h2, h⟩ := h
  injection h with h'
  exact ⟨hint, h'.symm⟩

theorem main_rest_shape {oracle : RegexOracle} {prompt : String} {g : Json}
    {input_data : Json} {project_file : Option Json} {config : RouterConfig}
    {out : Json}
    (h : main_rest oracle prompt g input_data project_file config = .ok out) :
    ∃ hint, out = output_with_context hint := by
  unfold main_rest at h
  simp only [except_bind_ok_iff] at h
  obtain ⟨prj, h1, mres, h2, ac, h3, l1, h4, sk, h5, l2, h6, result, h7, ns, h8, h⟩ := h
  exact build_output_shape h

/-- C1: for every stdin state, rules-file state, regex-engine behaviour
and configuration, the driver exits 0 and writes a single
`\x7b"hookSpecificOutput": \x7b"hookEventName": "UserPromptSubmit", ...\x7d\x7d`
object; `additionalContext` is present exactly in the recoverable cases
(the `ctx_present` condition: prompt extracted, global rules loaded and
valid, no exception in the pipeline) and absent in the unrecoverable
ones. -/
theorem driver_always_hook_output (oracle : RegexOracle) (stdin : StdinState)
    (global_file project_file : Option Json) (config : RouterConfig) :
    (router_main oracle stdin global_file project_file config).exit_code = 0 ∧
    is_hook_output
      (router_main oracle stdin global_file project_file config).output = true ∧
    has_context (router_main oracle stdin global_file project_file config).output
      = ctx_present oracle stdin global_file project_file config := by
  refine ⟨rfl, ?_⟩
  unfold router_main ctx_present
  simp only []
  cases hmp : main_prompt (read_input stdin) with
  | error e =>
    simp only [hmp]
    exact ⟨rfl, rfl⟩
  | ok prompt =>
    simp only [hmp]
    by_cases hp : prompt = ""
    · rw [if_pos hp, if_pos hp]
      cases global_file with
      | none => exact ⟨rfl, rfl⟩
      | some g =>
        by_cases hg : g.truthy = true
        · cases hb : build_short_no_match_hint g with
          | ok hint =>
            simp only [hg, hb]
            exact ⟨rfl, rfl⟩
          | error e =>
            simp only [hg, hb]
            exact ⟨rfl, rfl⟩
        · simp only [Bool.not_eq_true] at hg
          simp only [hg]
          exact ⟨rfl, rfl⟩
    · rw [if_neg hp, if_neg hp]
      cases global_file with
      | none => exact ⟨rfl, rfl⟩
      | some g =>
        cases hv : validate_rules g with
        | error e =>
            simp only [hv]
            exact ⟨rfl, rfl⟩
        | ok b =>
          cases b with
          | false =>
            simp only [hv]
            exact ⟨rfl, rfl⟩
          | true =>
            simp only [hv]
            cases hr : main_rest oracle prompt g (read_input stdin) project_file config with
            | ok out =>
              obtain ⟨hint, rfl⟩ := main_rest_shape hr
              simp only [hr]
              exact ⟨rfl, rfl⟩
            | error e =>
              simp only [hr]
              exact ⟨rfl, rfl⟩
